import Mathlib

/-!
Verification of the aios-core install/update/sync CLI.

The repository is a file-synchronization CLI: `install` copies the package
tree into a target project, `update` refreshes an existing installation
while preserving a fixed list of local configuration files, and `sync`
copies the project's `.claude/` tree back into the distributable
`.aios-core/claude-config/` tree.

We model the filesystem shallowly: a path is a list of segments, a
filesystem is an association list from paths to file contents (directories
are implicit: a directory exists when some file lives strictly below it).
File contents are either opaque byte strings, a parsed YAML install
manifest, or a parsed package.json record; this reflects the fact that the
code only ever compares file contents for byte equality, or parses the two
structured files (`install-manifest.yaml`, `package.json`).

Each command (`updateAction`, `installAction`, `syncAction`) is translated
step by step from `src/.aios-core/cli/commands/update/index.js` (which
holds all three command modules) and the CLI entry point.
-/

namespace AiosCore

/-- A filesystem path, already resolved, as a list of segments. -/
abbrev FPath := List String

/-- The install manifest record (`install-manifest.yaml`).  Fields are
optional: `update` writes no `force`/`skip_deps`, `install` writes no
`updated_at`/`previous_version`, and a hand-edited manifest may omit
anything. -/
structure Manifest where
  installed_at : Option String := none
  updated_at : Option String := none
  version : Option String := none
  previous_version : Option String := none
  source : Option String := none
  force : Option Bool := none
  skip_deps : Option Bool := none
deriving DecidableEq, Repr

/-- File contents, classified by how the two structured readers react to
the bytes.  `raw` is an opaque byte string that no structured reader
accepts but that `yaml.load` reads without throwing, as a plain scalar or
other field-less value (every field access on the load result yields
`undefined`); `yamlManifest` is a YAML-serialized manifest (`yaml.dump`
output, loaded back as a record); `packageJson` is a parsed `package.json`
carrying its optional `version` field; `badYaml` is a non-empty byte
string on which `yaml.load` throws, or whose document loads to
`null`/`undefined` (e.g. malformed YAML, a whitespace-only document) — so
a field access on the result of an *unguarded* load throws, while a load
inside `try`/`catch` lands in the handler.  An empty file is `raw ""` (it
never reaches an unguarded load, being falsy). -/
inductive Content where
  | raw : String → Content
  | yamlManifest : Manifest → Content
  | packageJson : Option String → Content
  | badYaml : String → Content
deriving DecidableEq, Repr

/-- A *guarded* `yaml.load` of a file, viewed as a manifest (step 2 of
update wraps the load and the field access in `try`/`catch`): it yields a
record exactly on serialized manifests.  For `raw` content the load
succeeds but the result has no fields, and for `badYaml` content the load
(or the field access on its `null` result) throws into the handler; in a
guarded context both observations collapse to `none`. -/
def yamlLoadManifest : Content → Option Manifest
  | Content.yamlManifest m => some m
  | _ => none

/-- JavaScript truthiness of a file content string: only the empty string
is falsy (`badYaml` strings are non-empty by convention, hence truthy). -/
def contentTruthy : Content → Bool
  | Content.raw s => !(s == "")
  | _ => true

/-- JavaScript `v || d` for an optional string `v`: `undefined` and the
empty string fall back to the default. -/
def jsOr (v : Option String) (d : String) : String :=
  match v with
  | some s => if s = "" then d else s
  | none => d

/-- Render a path the way the JS code stores it in the manifest `source`
field (an absolute path string). -/
def pathToString (p : FPath) : String :=
  String.intercalate "/" p

/-- A filesystem: an association list from file paths to contents.  Writes
prepend, so the first entry for a path is its current content. -/
structure FS where
  files : List (FPath × Content)
deriving DecidableEq, Repr

/-- Content of the file at `p`, if a file exists there. -/
def FS.read (fs : FS) (p : FPath) : Option Content :=
  (fs.files.find? (fun e => e.1 == p)).map (fun e => e.2)

/-- `true` when a file exists exactly at `p`. -/
def FS.isFile (fs : FS) (p : FPath) : Bool :=
  (fs.read p).isSome

/-- `fs.existsSync(p)`: a file lives at `p`, or `p` is a directory
(some file lives at or strictly below `p`). -/
def FS.existsPath (fs : FS) (p : FPath) : Bool :=
  fs.files.any (fun e => p.isPrefixOf e.1)

/-- `statSync(p).isDirectory()`: some file lives strictly below `p`. -/
def FS.isDir (fs : FS) (p : FPath) : Bool :=
  fs.files.any (fun e => p.isPrefixOf e.1 && !(p == e.1))

/-- `fs.writeFileSync(p, c)` (also a single-file `fs.copy`). -/
def FS.write (fs : FS) (p : FPath) (c : Content) : FS :=
  ⟨(p, c) :: fs.files⟩

/-- `fs.remove(p)`: delete the file or directory tree at `p`. -/
def FS.removeTree (fs : FS) (p : FPath) : FS :=
  ⟨fs.files.filter (fun e => !(p.isPrefixOf e.1))⟩

/-- fs-extra applies the copy filter to every item it descends into, so a
file is copied only when the filter accepts each of its ancestors below
the copy root, and the file itself.  `relOk f rel` states that every
nonempty initial segment of the relative path `rel` passes `f` (the root
itself, `rel = []`, is always accepted, as in the source filters). -/
def relOk (f : FPath → Bool) (rel : FPath) : Bool :=
  (List.range rel.length).all (fun i => f (rel.take (i + 1)))

/-- One candidate of `fs.copy(src, dest, { filter, overwrite })`: an entry
at or below `src` whose relative path passes the filter is copied to the
corresponding path below `dest` with its current content; with
`overwrite = false` an existing destination file makes the copy skip
(`errorOnExist` is never set in this code base). -/
def copyEntry (fs : FS) (src dest : FPath) (f : FPath → Bool) (ow : Bool)
    (e : FPath × Content) : Option (FPath × Content) :=
  if src.isPrefixOf e.1 && relOk f (e.1.drop src.length)
      && (ow || !(fs.isFile (dest ++ e.1.drop src.length)))
  then (fs.read e.1).map (fun c => (dest ++ e.1.drop src.length, c))
  else none

/-- `fs.copy(src, dest, { filter, overwrite })`: recursive copy.  The new
entries shadow any previous entry at the same destination path. -/
def FS.copyTree (fs : FS) (src dest : FPath) (f : FPath → Bool) (ow : Bool) : FS :=
  ⟨fs.files.filterMap (copyEntry fs src dest f ow) ++ fs.files⟩

/-- Files to preserve during update (`LOCAL_CONFIGS` in update/index.js). -/
def LOCAL_CONFIGS : List String :=
  ["core-config.yaml", "local-config.yaml", "install-manifest.yaml"]

/-- Items excluded when copying the package root to the target
(`COPY_EXCLUDE`, identical in the install and update modules). -/
def COPY_EXCLUDE : List String :=
  ["node_modules", ".DS_Store", "claude-config", "package-lock.json"]

/-- Items synced from `.claude/` to `claude-config/` (`SYNC_ITEMS`). -/
def SYNC_ITEMS : List String :=
  ["commands", "rules", "hooks", "CLAUDE.md", "settings.json"]

/-- Items that must never be synced (`NEVER_SYNC`). -/
def NEVER_SYNC : List String :=
  ["settings.local.json"]

/-- `getPackageVersion` of the update module: parse
`<packageRoot>/package.json`, return its `version` field, with `"0.0.0"`
on any read/parse failure or falsy version. -/
def getPackageVersion (fs : FS) (packageRoot : FPath) : String :=
  match fs.read (packageRoot ++ ["package.json"]) with
  | some (Content.packageJson v) => jsOr v "0.0.0"
  | _ => "0.0.0"

/-- `getPackageVersion` of the install module (a textually identical copy
of the update module's function). -/
def installGetPackageVersion (fs : FS) (packageRoot : FPath) : String :=
  match fs.read (packageRoot ++ ["package.json"]) with
  | some (Content.packageJson v) => jsOr v "0.0.0"
  | _ => "0.0.0"

/-- The CLI entry point's version read: `packageVersion` starts at
`"0.0.0"`, and inside the `try` block is assigned `packageJson.version`
with no `|| '0.0.0'` fallback — so a package.json that parses but lacks a
`version` field leaves `packageVersion = undefined` (`none` here). -/
def cliPackageVersion (fs : FS) (dir : FPath) : Option String :=
  match fs.read (dir ++ ["package.json"]) with
  | some (Content.packageJson v) => v
  | _ => some "0.0.0"

/-- The update copy filter (step 4 of `updateAction`): skip excluded
top-level items; without `--force`, also skip the top-level local config
files (`LOCAL_CONFIGS.includes(relative)` matches only a bare top-level
name). -/
def updateCopyFilter (force : Bool) (rel : FPath) : Bool :=
  match rel with
  | [] => true
  | top :: rest =>
    if COPY_EXCLUDE.contains top then false
    else if !force && rest.isEmpty && LOCAL_CONFIGS.contains top then false
    else true

/-- The install copy filter: skip excluded top-level items. -/
def installCopyFilter (rel : FPath) : Bool :=
  match rel with
  | [] => true
  | top :: _ => !(COPY_EXCLUDE.contains top)

/-- Step 3 of `updateAction`: snapshot each existing local config file,
in `LOCAL_CONFIGS` order. -/
def mkBackups (fs : FS) (targetAiosCore : FPath) : List (String × Content) :=
  LOCAL_CONFIGS.filterMap (fun cf =>
    (fs.read (targetAiosCore ++ [cf])).map (fun c => (cf, c)))

/-- `backups[k]` on the snapshot dictionary. -/
def lookupBackup (backups : List (String × Content)) (k : String) : Option Content :=
  (backups.find? (fun e => e.1 == k)).map (fun e => e.2)

/-- One catalog replacement of step 5 (`commands`/`rules`/`hooks`): if the
source subtree exists, remove the destination subtree and copy the source
wholesale (no filter, default overwrite). -/
def updateCatalogStep (fs : FS) (claudeConfigSrc claudeTarget : FPath) (item : String) : FS :=
  if fs.existsPath (claudeConfigSrc ++ [item]) then
    (fs.removeTree (claudeTarget ++ [item])).copyTree
      (claudeConfigSrc ++ [item]) (claudeTarget ++ [item]) (fun _ => true) true
  else fs

/-- Step 6 of `updateAction`: write every snapshot entry back, in
insertion order. -/
def restoreConfigs (targetAiosCore : FPath) : FS → List (String × Content) → FS
  | fs, [] => fs
  | fs, (cf, c) :: rest => restoreConfigs targetAiosCore (fs.write (targetAiosCore ++ [cf]) c) rest

/-- The `installed_at` ternary of step 7:
`backups['install-manifest.yaml'] ? yaml.load(backups[...]).installed_at
: new Date().toISOString()`.  The guard is JavaScript truthiness of the
snapshot string — an absent *or empty* snapshot takes the `new Date()`
branch — and the taken load is *unguarded* (no `try`/`catch` around step
7): on a truthy snapshot on which `yaml.load` throws or yields `null`,
the expression throws, modeled as `none`.  `some v` is the computed field
value of a non-throwing evaluation. -/
def step7InstalledAt (installBackup : Option Content) (now : String) :
    Option (Option String) :=
  match installBackup with
  | some c =>
    if contentTruthy c then
      match c with
      | Content.badYaml _ => none
      | _ => some ((yamlLoadManifest c).bind (fun m => m.installed_at))
    else some (some now)
  | none => some (some now)

/-- Step 7 of `updateAction`: the new manifest record, `none` when the
`installed_at` initializer throws (the throw is uncaught inside
`updateProject`, so no record is built and nothing is written).
`updated_at` is the current time; `previous_version` is the version read
in step 2. -/
def buildUpdateManifest (installBackup : Option Content) (version currentVersion : String)
    (packageRoot : FPath) (now : String) : Option Manifest :=
  (step7InstalledAt installBackup now).map (fun ia =>
    { installed_at := ia,
      updated_at := some now,
      version := some version,
      previous_version := some currentVersion,
      source := some (pathToString packageRoot) })

/-- Step 2 of `updateAction`: the version currently on disk, or the
sentinel `"unknown"` when the manifest is absent, unreadable, or carries a
falsy version. -/
def readCurrentVersion (fs : FS) (manifestPath : FPath) : String :=
  match fs.read manifestPath with
  | some c =>
    match yamlLoadManifest c with
    | some m => jsOr m.version "unknown"
    | none => "unknown"
  | none => "unknown"

/-- The `settings.json` copy of step 5: overwrite the base settings from
the package template when the template exists. -/
def settingsJsonStep (fs : FS) (claudeConfigSrc claudeTarget : FPath) : FS :=
  match fs.read (claudeConfigSrc ++ ["settings.json"]) with
  | some c => fs.write (claudeTarget ++ ["settings.json"]) c
  | none => fs

/-- The CLAUDE.md overwrite condition of step 5:
`!claudeMdBackup || claudeMdBackup === templateContent || options.force`.
JavaScript `!` on a string is true for `null` (no local copy) and for the
empty string. -/
def claudeMdCond (claudeMdBackup : Option Content) (templ : Content) (force : Bool) : Bool :=
  (match claudeMdBackup with
   | none => true
   | some c => !(contentTruthy c))
  || (claudeMdBackup == some templ) || force

/-- The CLAUDE.md update of step 5: copy the template over the local file
exactly when `claudeMdCond` holds. -/
def claudeMdStep (fs : FS) (claudeConfigSrc claudeMdPath : FPath)
    (claudeMdBackup : Option Content) (force : Bool) : FS :=
  match fs.read (claudeConfigSrc ++ ["CLAUDE.md"]) with
  | some templ =>
    if claudeMdCond claudeMdBackup templ force then fs.write claudeMdPath templ else fs
  | none => fs

/-- Step 5 of `updateAction`: when the package carries a `claude-config`
tree, replace the three catalogs wholesale, refresh `settings.json`, and
conditionally refresh `CLAUDE.md`. -/
def updateClaudeSection (fs1 : FS) (packageRoot cwd : FPath) (force : Bool)
    (claudeMdBackup : Option Content) : FS :=
  if fs1.existsPath (packageRoot ++ ["claude-config"]) then
    claudeMdStep
      (settingsJsonStep
        (updateCatalogStep
          (updateCatalogStep
            (updateCatalogStep fs1
              (packageRoot ++ ["claude-config"]) (cwd ++ [".claude"]) "commands")
            (packageRoot ++ ["claude-config"]) (cwd ++ [".claude"]) "rules")
          (packageRoot ++ ["claude-config"]) (cwd ++ [".claude"]) "hooks")
        (packageRoot ++ ["claude-config"]) (cwd ++ [".claude"]))
      (packageRoot ++ ["claude-config"]) (cwd ++ [".claude", "CLAUDE.md"]) claudeMdBackup force
  else fs1

/-- The `settings.local.json` restore after step 6: JavaScript
`if (settingsLocalBackup)` skips `null` and the empty string. -/
def settingsLocalRestore (fs : FS) (cwd : FPath) (backup : Option Content) : FS :=
  match backup with
  | some c =>
    if contentTruthy c then fs.write (cwd ++ [".claude", "settings.local.json"]) c else fs
  | none => fs

/-- Steps 2-6 of `updateAction` (everything after the installation check
and before the manifest write): snapshot, framework copy, `.claude`
refresh, config restore.  These effects are complete before step 7's
`installed_at` initializer runs, so they stand whether or not that
initializer throws.  `now` stands for `new Date().toISOString()`. -/
def updateRestoredState (fs0 : FS) (packageRoot cwd : FPath) (force : Bool) : FS :=
  let targetAiosCore := cwd ++ [".aios-core"]
  let backups := mkBackups fs0 targetAiosCore
  let fs1 := fs0.copyTree packageRoot targetAiosCore (updateCopyFilter force) true
  let fs2 := updateClaudeSection fs1 packageRoot cwd force
    (fs0.read (cwd ++ [".claude", "CLAUDE.md"]))
  let fs3 := restoreConfigs targetAiosCore fs2 backups
  settingsLocalRestore fs3 cwd (fs0.read (cwd ++ [".claude", "settings.local.json"]))

/-- Step 7's record for a given pre-update filesystem: the inputs of
`buildUpdateManifest` spelled out (the snapshot, the package version of
step 2, the on-disk version of step 2). -/
def updateNewManifest (fs0 : FS) (packageRoot cwd : FPath) (now : String) : Option Manifest :=
  buildUpdateManifest
    (lookupBackup (mkBackups fs0 (cwd ++ [".aios-core"])) "install-manifest.yaml")
    (getPackageVersion fs0 packageRoot)
    (readCurrentVersion fs0 ((cwd ++ [".aios-core"]) ++ ["install-manifest.yaml"]))
    packageRoot now

/-- `updateAction` (update/index.js): verify an installation exists, run
steps 2-6, then build and write the new manifest.  Returns the process
exit code and the resulting filesystem.  When step 7's `installed_at`
initializer throws, the exception is uncaught in `updateProject` and in
the command action, lands in `run()`'s catch in the CLI entry, and the
process exits 1 — after the restore effects, without the manifest
write. -/
def updateAction (fs0 : FS) (packageRoot cwd : FPath) (force : Bool) (now : String) :
    Nat × FS :=
  if !(fs0.existsPath (cwd ++ [".aios-core"])) then (1, fs0)
  else
    match updateNewManifest fs0 packageRoot cwd now with
    | some m =>
      (0, (updateRestoredState fs0 packageRoot cwd force).write
        ((cwd ++ [".aios-core"]) ++ ["install-manifest.yaml"]) (Content.yamlManifest m))
    | none => (1, updateRestoredState fs0 packageRoot cwd force)

/-- Steps 3-6 of `installAction` (everything after the two precondition
checks): framework copy, `claude-config` copy with the three destination
states, manifest write.  The npm dependency install of step 5 is an
external subprocess whose failure is downgraded to a warning; it touches
no path this model tracks. -/
def installBody (fs0 : FS) (packageRoot cwd : FPath) (force skipDeps : Bool) (now : String) :
    FS :=
  let targetAiosCore := cwd ++ [".aios-core"]
  let fs1 := fs0.copyTree packageRoot targetAiosCore installCopyFilter force
  let fs2 :=
    if fs1.existsPath (packageRoot ++ ["claude-config"]) then
      if !(fs1.existsPath (cwd ++ [".claude"])) then
        fs1.copyTree (packageRoot ++ ["claude-config"]) (cwd ++ [".claude"]) (fun _ => true) true
      else if force then
        fs1.copyTree (packageRoot ++ ["claude-config"]) (cwd ++ [".claude"]) (fun _ => true) true
      else
        fs1.copyTree (packageRoot ++ ["claude-config"]) (cwd ++ [".claude"]) (fun _ => true) false
    else fs1
  fs2.write (targetAiosCore ++ ["install-manifest.yaml"]) (Content.yamlManifest
    { installed_at := some now, version := some (getPackageVersion fs0 packageRoot),
      source := some (pathToString packageRoot), force := some force,
      skip_deps := some skipDeps })

/-- `installAction` (install/index.js): refuse an existing installation
without `--force`, refuse to install into the package source tree or its
parent, else run the install body and exit 0. -/
def installAction (fs0 : FS) (packageRoot cwd : FPath) (force skipDeps : Bool) (now : String) :
    Nat × FS :=
  if fs0.existsPath (cwd ++ [".aios-core"]) && !force then (1, fs0)
  else if cwd == packageRoot || cwd == packageRoot.dropLast then (1, fs0)
  else (0, installBody fs0 packageRoot cwd force skipDeps now)

/-- The sync copy filter: never copy an item whose basename is in
`NEVER_SYNC` or is `.DS_Store`. -/
def syncFilter (rel : FPath) : Bool :=
  match rel.getLast? with
  | some b => !(NEVER_SYNC.contains b) && !(b == ".DS_Store")
  | none => true

/-- One item of step 4 of `syncAction`: skip a missing source; replace the
destination wholesale for a directory (remove, then filtered copy); plain
overwriting copy for a file. -/
def syncStep (claudeDir claudeConfigDir : FPath) (fs : FS) (item : String) : FS :=
  if !(fs.existsPath (claudeDir ++ [item])) then fs
  else if fs.isDir (claudeDir ++ [item]) then
    (fs.removeTree (claudeConfigDir ++ [item])).copyTree
      (claudeDir ++ [item]) (claudeConfigDir ++ [item]) syncFilter true
  else
    match fs.read (claudeDir ++ [item]) with
    | some c => fs.write (claudeConfigDir ++ [item]) c
    | none => fs

/-- Steps 3-5 of `syncAction` (everything after the two precondition
checks): sync each item, then remove `NEVER_SYNC` leftovers from the top
of `claude-config`.  `ensureDir` creates no file, so it is invisible in a
model with implicit directories. -/
def syncBody (fs0 : FS) (cwd : FPath) : FS :=
  let fs1 := SYNC_ITEMS.foldl
    (syncStep (cwd ++ [".claude"]) (cwd ++ [".aios-core", "claude-config"])) fs0
  NEVER_SYNC.foldl
    (fun fsa item =>
      if fsa.existsPath (cwd ++ [".aios-core", "claude-config", item]) then
        fsa.removeTree (cwd ++ [".aios-core", "claude-config", item])
      else fsa) fs1

/-- `syncAction` (sync/index.js): verify both `.claude/` and `.aios-core/`
exist, then run the sync body and exit 0. -/
def syncAction (fs0 : FS) (cwd : FPath) : Nat × FS :=
  if !(fs0.existsPath (cwd ++ [".claude"])) then (1, fs0)
  else if !(fs0.existsPath (cwd ++ [".aios-core"])) then (1, fs0)
  else (0, syncBody fs0 cwd)

/-! ## Concrete example states (used for witnesses and counterexamples) -/

/-- A package tree at root `pkg`: version 1.2.0, one command, a CLAUDE.md
template and base settings. -/
def pkgFiles : List (FPath × Content) :=
  [(["pkg", "package.json"], Content.packageJson (some "1.2.0")),
   (["pkg", "claude-config", "commands", "new.md"], Content.raw "NEW"),
   (["pkg", "claude-config", "CLAUDE.md"], Content.raw "TEMPLATE"),
   (["pkg", "claude-config", "settings.json"], Content.raw "BASE")]

/-- A project at root `proj` with an existing 1.0.0 installation: local
configs, a stale command, and a customized CLAUDE.md. -/
def fsBefore : FS :=
  ⟨pkgFiles ++
   [(["proj", ".aios-core", "core-config.yaml"], Content.raw "CORE"),
    (["proj", ".aios-core", "local-config.yaml"], Content.raw "LOCAL"),
    (["proj", ".aios-core", "install-manifest.yaml"],
      Content.yamlManifest
        { installed_at := some "2025-01-01T00:00:00Z", version := some "1.0.0",
          source := some "pkg" }),
    (["proj", ".claude", "commands", "old.md"], Content.raw "OLD"),
    (["proj", ".claude", "CLAUDE.md"], Content.raw "CUSTOM")]⟩

/-- The project after one update at time T1. -/
def fsAfter1 : FS := (updateAction fsBefore ["pkg"] ["proj"] false "T1").2

/-- The project after a second update at time T2 (identical package). -/
def fsAfter2 : FS := (updateAction fsAfter1 ["pkg"] ["proj"] false "T2").2

/-- A package whose package.json parses but carries no `version` field. -/
def fsNoVersion : FS := ⟨[(["pkg", "package.json"], Content.packageJson none)]⟩

/-- A project whose `.claude/CLAUDE.md` exists but is empty (zero bytes),
with a customized-looking empty file and a non-empty incoming template. -/
def fsEmptyClaudeMd : FS :=
  ⟨pkgFiles ++
   [(["proj", ".aios-core", "core-config.yaml"], Content.raw "CORE"),
    (["proj", ".claude", "CLAUDE.md"], Content.raw "")]⟩

/-- A project whose installed `install-manifest.yaml` exists (truthy) but
holds bytes that `yaml.load` rejects. -/
def fsBadManifest : FS :=
  ⟨pkgFiles ++
   [(["proj", ".aios-core", "core-config.yaml"], Content.raw "CORE"),
    (["proj", ".aios-core", "install-manifest.yaml"], Content.badYaml "["),
    (["proj", ".claude", "CLAUDE.md"], Content.raw "CUSTOM")]⟩

/-- A hub project in which a `settings.local.json` sits nested inside the
distributable `claude-config/rules` subtree, while `.claude` has no
`rules` directory (so sync will skip that catalog). -/
def fsSyncLeftover : FS :=
  ⟨[(["hub", ".claude", "CLAUDE.md"], Content.raw "X"),
    (["hub", ".aios-core", "claude-config", "rules", "settings.local.json"],
      Content.raw "SECRET")]⟩

/-! ## Basic filesystem lemmas -/

/-- `List.find?_cons_of_pos` with every argument explicit (robust under
`rw`). -/
theorem find?_cons_pos {α : Type} (pr : α → Bool) (a : α) (l : List α) (h : pr a = true) :
    (a :: l).find? pr = some a :=
  List.find?_cons_of_pos l h

/-- `List.find?_cons_of_neg` with every argument explicit. -/
theorem find?_cons_neg {α : Type} (pr : α → Bool) (a : α) (l : List α) (h : ¬ pr a = true) :
    (a :: l).find? pr = l.find? pr :=
  List.find?_cons_of_neg l h

theorem FS.read_write_self (fs : FS) (p : FPath) (c : Content) :
    (fs.write p c).read p = some c := by
  unfold FS.write FS.read
  rw [find?_cons_pos (fun e => e.1 == p) (p, c) fs.files (by simp)]
  rfl

theorem FS.read_write_ne (fs : FS) (p q : FPath) (c : Content) (h : q ≠ p) :
    (fs.write p c).read q = fs.read q := by
  unfold FS.write FS.read
  rw [find?_cons_neg (fun e => e.1 == q) (p, c) fs.files (by simp [Ne.symm h])]

theorem find?_key_filter_not_pfx (p q : FPath) (l : List (FPath × Content)) (h : ¬ p <+: q) :
    (l.filter (fun e => !(p.isPrefixOf e.1))).find? (fun e => e.1 == q)
      = l.find? (fun e => e.1 == q) := by
  induction l with
  | nil => rfl
  | cons a l ih =>
    by_cases hpf : p.isPrefixOf a.1 = true
    · have hk : ¬ ((a.1 == q) = true) := by
        simp only [beq_iff_eq]
        rintro rfl
        exact h (List.isPrefixOf_iff_prefix.mp hpf)
      simp only [List.filter_cons, hpf, Bool.not_true]
      rw [if_neg (by simp)]
      rw [find?_cons_neg (fun e => e.1 == q) a l hk, ih]
    · have hpf' : p.isPrefixOf a.1 = false := Bool.eq_false_iff.mpr hpf
      simp only [List.filter_cons, hpf', Bool.not_false]
      rw [if_pos (by trivial)]
      by_cases hq : (a.1 == q) = true
      · rw [find?_cons_pos (fun e => e.1 == q) a
          (l.filter (fun e => !(p.isPrefixOf e.1))) hq,
          find?_cons_pos (fun e => e.1 == q) a l hq]
      · rw [find?_cons_neg (fun e => e.1 == q) a
          (l.filter (fun e => !(p.isPrefixOf e.1))) hq,
          find?_cons_neg (fun e => e.1 == q) a l hq, ih]

theorem FS.read_removeTree (fs : FS) (p q : FPath) :
    (fs.removeTree p).read q = if p <+: q then none else fs.read q := by
  by_cases h : p <+: q
  · rw [if_pos h]
    unfold FS.removeTree FS.read
    rw [Option.map_eq_none', List.find?_eq_none]
    intro e he hbeq
    have hkey : e.1 = q := by simpa using hbeq
    have hmem := List.mem_filter.mp he
    have hpf : p.isPrefixOf e.1 = true := List.isPrefixOf_iff_prefix.mpr (hkey ▸ h)
    rw [hpf] at hmem
    simp at hmem
  · rw [if_neg h]
    unfold FS.removeTree FS.read
    rw [find?_key_filter_not_pfx p q fs.files h]

theorem FS.read_removeTree_of_not_pfx (fs : FS) (p q : FPath) (h : ¬ p <+: q) :
    (fs.removeTree p).read q = fs.read q := by
  rw [FS.read_removeTree, if_neg h]

theorem FS.read_removeTree_of_pfx (fs : FS) (p q : FPath) (h : p <+: q) :
    (fs.removeTree p).read q = none := by
  rw [FS.read_removeTree, if_pos h]

/-- A key with `src` as an initial segment is `src` followed by its own
tail. -/
theorem eq_append_drop_of_pfx {src k : FPath} (h : src <+: k) :
    k = src ++ k.drop src.length := by
  rcases h with ⟨t, rfl⟩
  rw [List.drop_left]

/-- Unpacking a successful `copyEntry`. -/
theorem copyEntry_eq_some {fs : FS} {src dest : FPath} {f : FPath → Bool} {ow : Bool}
    {e b : FPath × Content} (h : copyEntry fs src dest f ow e = some b) :
    src <+: e.1 ∧ relOk f (e.1.drop src.length) = true ∧
      b.1 = dest ++ e.1.drop src.length ∧ fs.read e.1 = some b.2 := by
  unfold copyEntry at h
  split at h
  case isFalse => exact absurd h (by simp)
  case isTrue hc =>
    simp only [Bool.and_eq_true] at hc
    rcases Option.map_eq_some'.mp h with ⟨c, hc2, rfl⟩
    exact ⟨List.isPrefixOf_iff_prefix.mp hc.1.1, hc.1.2, rfl, hc2⟩

theorem FS.read_copyTree_cases (fs : FS) (src dest : FPath) (f : FPath → Bool) (ow : Bool)
    (q : FPath) :
    (fs.copyTree src dest f ow).read q = fs.read q ∨
    ∃ rel, q = dest ++ rel ∧ relOk f rel = true ∧
      (fs.copyTree src dest f ow).read q = fs.read (src ++ rel) := by
  cases hfind : (fs.files.filterMap (copyEntry fs src dest f ow)).find? (fun e => e.1 == q) with
  | none =>
    left
    unfold FS.copyTree FS.read
    rw [List.find?_append, hfind]
    rfl
  | some b =>
    right
    have hkey : b.1 = q := by simpa using List.find?_some hfind
    rcases List.mem_filterMap.mp (List.mem_of_find?_eq_some hfind) with ⟨e0, _, hmap⟩
    rcases copyEntry_eq_some hmap with ⟨hpf, hok, hb1, hb2⟩
    refine ⟨e0.1.drop src.length, by rw [← hkey, hb1], hok, ?_⟩
    have hL : (fs.copyTree src dest f ow).read q = some b.2 := by
      unfold FS.copyTree FS.read
      rw [List.find?_append, hfind]
      rfl
    rw [hL, ← eq_append_drop_of_pfx hpf, hb2]

theorem FS.read_copyTree_of_not_pfx (fs : FS) (src dest : FPath) (f : FPath → Bool) (ow : Bool)
    (q : FPath) (h : ¬ dest <+: q) :
    (fs.copyTree src dest f ow).read q = fs.read q := by
  rcases FS.read_copyTree_cases fs src dest f ow q with h1 | ⟨rel, rfl, _, _⟩
  · exact h1
  · exact absurd (List.prefix_append dest rel) h

/-- The fresh entries of a wholesale copy (`filter` trivial, overwrite),
looked up at `dest ++ rel`, are exactly the content at `src ++ rel` when
the list holds that source key. -/
theorem find?_copied_trivial (fs : FS) (src dest rel : FPath) (l : List (FPath × Content)) :
    ((l.filterMap (copyEntry fs src dest (fun _ => true) true)).find?
        (fun e => e.1 == dest ++ rel))
      = if l.any (fun e => e.1 == src ++ rel)
        then (fs.read (src ++ rel)).map (fun c => (dest ++ rel, c))
        else none := by
  induction l with
  | nil => rfl
  | cons a l ih =>
    by_cases hk : a.1 = src ++ rel
    · have hpf : src.isPrefixOf a.1 = true :=
        List.isPrefixOf_iff_prefix.mpr (by rw [hk]; exact List.prefix_append src rel)
      have hdrop : a.1.drop src.length = rel := by rw [hk, List.drop_left]
      have hany : ((a :: l).any (fun e => e.1 == src ++ rel)) = true := by
        rw [List.any_cons, beq_iff_eq.mpr hk, Bool.true_or]
      rw [hany, if_pos (by trivial)]
      cases hr : fs.read (src ++ rel) with
      | none =>
        have hentry : copyEntry fs src dest (fun _ => true) true a = none := by
          unfold copyEntry
          rw [if_pos (by rw [hpf, hdrop]; simp [relOk]), hk, hr]
          rfl
        simp only [List.filterMap_cons, hentry]
        rw [ih, hr]
        simp only [Option.map_none', ite_self]
      | some c =>
        have hentry : copyEntry fs src dest (fun _ => true) true a
            = some (dest ++ rel, c) := by
          unfold copyEntry
          rw [if_pos (by rw [hpf, hdrop]; simp [relOk]), hdrop, hk, hr]
          rfl
        simp only [List.filterMap_cons, hentry]
        rw [find?_cons_pos (fun e => e.1 == dest ++ rel) (dest ++ rel, c)
          (l.filterMap (copyEntry fs src dest (fun _ => true) true)) (by simp)]
        rfl
    · have hany : ((a :: l).any (fun e => e.1 == src ++ rel))
          = (l.any (fun e => e.1 == src ++ rel)) := by
        rw [List.any_cons, beq_eq_false_iff_ne.mpr hk, Bool.false_or]
      rw [hany]
      cases hfa : copyEntry fs src dest (fun _ => true) true a with
      | none =>
        simp only [List.filterMap_cons, hfa]
        exact ih
      | some b =>
        rcases copyEntry_eq_some hfa with ⟨hpf, _, hb1, _⟩
        have hbq : ¬ ((b.1 == dest ++ rel) = true) := by
          simp only [beq_iff_eq]
          rw [hb1]
          intro heq
          have hdr : a.1.drop src.length = rel := List.append_cancel_left heq
          exact hk ((eq_append_drop_of_pfx hpf).trans (by rw [hdr]))
        simp only [List.filterMap_cons, hfa]
        rw [find?_cons_neg (fun e => e.1 == dest ++ rel) b
          (l.filterMap (copyEntry fs src dest (fun _ => true) true)) hbq]
        exact ih

/-- A list holds a key exactly when reading it succeeds. -/
theorem FS.any_key_eq (fs : FS) (k : FPath) :
    fs.files.any (fun e => e.1 == k) = (fs.read k).isSome := by
  unfold FS.read
  cases hfind : fs.files.find? (fun e => e.1 == k) with
  | none =>
    simp only [Option.map_none', Option.isSome_none]
    rw [List.any_eq_false]
    intro e he
    exact List.find?_eq_none.mp hfind e he
  | some e =>
    simp only [Option.map_some', Option.isSome_some]
    have hpe := List.find?_some hfind
    exact List.any_eq_true.mpr ⟨e, List.mem_of_find?_eq_some hfind, hpe⟩

/-- Reading below the destination of a remove-then-copy catalog
replacement gives exactly the source tree's content. -/
theorem FS.read_removeCopy_dest (fs : FS) (src dest rel : FPath)
    (h : ¬ dest <+: src ++ rel) :
    ((fs.removeTree dest).copyTree src dest (fun _ => true) true).read (dest ++ rel)
      = fs.read (src ++ rel) := by
  have hsrc : (fs.removeTree dest).read (src ++ rel) = fs.read (src ++ rel) :=
    FS.read_removeTree_of_not_pfx fs dest (src ++ rel) h
  have h2 : (fs.removeTree dest).files.find? (fun e => e.1 == dest ++ rel) = none := by
    have h3 : (fs.removeTree dest).read (dest ++ rel) = none :=
      FS.read_removeTree_of_pfx fs dest (dest ++ rel) (List.prefix_append dest rel)
    unfold FS.read at h3
    exact Option.map_eq_none'.mp h3
  have hL : ((fs.removeTree dest).copyTree src dest (fun _ => true) true).read (dest ++ rel)
      = ((((fs.removeTree dest).files.filterMap
            (copyEntry (fs.removeTree dest) src dest (fun _ => true) true)).find?
          (fun e => e.1 == dest ++ rel)).or
        ((fs.removeTree dest).files.find? (fun e => e.1 == dest ++ rel))).map
          (fun e => e.2) := by
    unfold FS.copyTree FS.read
    rw [List.find?_append]
  rw [hL, h2, find?_copied_trivial, FS.any_key_eq, hsrc]
  cases hr : fs.read (src ++ rel) with
  | none => simp only [Option.isSome_none, Bool.false_eq_true, if_false, Option.map_none']; rfl
  | some c => rfl

theorem FS.existsPath_iff_read (fs : FS) (p : FPath) :
    fs.existsPath p = true ↔ ∃ qq, (fs.read (p ++ qq)).isSome = true := by
  unfold FS.existsPath
  rw [List.any_eq_true]
  constructor
  · rintro ⟨e, he, hpf⟩
    have hp : p <+: e.1 := List.isPrefixOf_iff_prefix.mp hpf
    refine ⟨e.1.drop p.length, ?_⟩
    rw [← eq_append_drop_of_pfx hp, ← FS.any_key_eq]
    exact List.any_eq_true.mpr ⟨e, he, by simp⟩
  · rintro ⟨qq, hq⟩
    rw [← FS.any_key_eq] at hq
    rcases List.any_eq_true.mp hq with ⟨e, he, hbeq⟩
    have hkey : e.1 = p ++ qq := by simpa using hbeq
    exact ⟨e, he, List.isPrefixOf_iff_prefix.mpr (hkey ▸ List.prefix_append p qq)⟩

theorem FS.existsPath_of_read (fs : FS) (p qq : FPath) (c : Content)
    (h : fs.read (p ++ qq) = some c) : fs.existsPath p = true :=
  (FS.existsPath_iff_read fs p).mpr ⟨qq, by rw [h]; rfl⟩

theorem FS.read_eq_none_of_not_existsPath (fs : FS) (p qq : FPath)
    (h : fs.existsPath p = false) : fs.read (p ++ qq) = none := by
  cases hr : fs.read (p ++ qq) with
  | none => rfl
  | some c => rw [FS.existsPath_of_read fs p qq c hr] at h; exact absurd h (by simp)

/-- Existence transfers along pointwise read equality below a path. -/
theorem FS.existsPath_true_of_reads (fs fs' : FS) (p : FPath)
    (h : ∀ qq, fs'.read (p ++ qq) = fs.read (p ++ qq)) (he : fs.existsPath p = true) :
    fs'.existsPath p = true := by
  rcases (FS.existsPath_iff_read fs p).mp he with ⟨qq, hq⟩
  exact (FS.existsPath_iff_read fs' p).mpr ⟨qq, by rw [h]; exact hq⟩

/-! ## Path utilities -/

theorem append_ne_of_head_ne {x : FPath} {a b : String} {r s : FPath} (h : a ≠ b) :
    x ++ (a :: r) ≠ x ++ (b :: s) := by
  intro he
  have h2 := List.append_cancel_left he
  exact h (by injection h2)

theorem not_pfx_append_of_head_ne {x : FPath} {a b : String} {r s : FPath} (h : a ≠ b) :
    ¬ (x ++ (a :: r)) <+: (x ++ (b :: s)) := by
  intro hp
  have h2 := (List.prefix_append_right_inj x).mp hp
  exact h (List.cons_prefix_cons.mp h2).1

/-- The working-directory subtree and the package subtree are disjoint: no
path at or below the package root lies at or below the working directory.
This is the real deployment layout (`fs.copy` would fail on overlapping
source and destination trees). -/
def RootsDisjoint (cwd packageRoot : FPath) : Prop :=
  ∀ q : FPath, ¬ cwd <+: (packageRoot ++ q)

/-- Distinct leading segments make the two subtrees disjoint (used to
discharge `RootsDisjoint` on concrete inputs). -/
theorem rootsDisjoint_of_head_ne {a b : String} (as bs : FPath) (h : a ≠ b) :
    RootsDisjoint (a :: as) (b :: bs) := by
  intro q hp
  rw [List.cons_append] at hp
  exact h (List.cons_prefix_cons.mp hp).1

/-- Under disjoint roots, no destination below the working directory is an
ancestor of a path below the package root. -/
theorem RootsDisjoint.not_pfx {cwd packageRoot : FPath} (hd : RootsDisjoint cwd packageRoot)
    {d : FPath} (hcd : cwd <+: d) (r : FPath) : ¬ d <+: (packageRoot ++ r) :=
  fun hdp => hd r (hcd.trans hdp)

/-! ## Frame lemmas for the update stages -/

theorem updateCatalogStep_read_outside (fs : FS) (csrc ctgt : FPath) (item : String)
    (q : FPath) (h : ¬ (ctgt ++ [item]) <+: q) :
    (updateCatalogStep fs csrc ctgt item).read q = fs.read q := by
  unfold updateCatalogStep
  split
  · rw [FS.read_copyTree_of_not_pfx _ _ _ _ _ _ h, FS.read_removeTree_of_not_pfx _ _ _ h]
  · rfl

theorem settingsJsonStep_read_ne (fs : FS) (csrc ctgt : FPath) (q : FPath)
    (h : q ≠ ctgt ++ ["settings.json"]) :
    (settingsJsonStep fs csrc ctgt).read q = fs.read q := by
  unfold settingsJsonStep
  split
  · exact FS.read_write_ne _ _ _ _ h
  · rfl

theorem claudeMdStep_read_ne (fs : FS) (csrc claudeMdPath : FPath) (b : Option Content)
    (force : Bool) (q : FPath) (h : q ≠ claudeMdPath) :
    (claudeMdStep fs csrc claudeMdPath b force).read q = fs.read q := by
  unfold claudeMdStep
  split
  · split
    · exact FS.read_write_ne _ _ _ _ h
    · rfl
  · rfl

theorem restoreConfigs_read_outside (t : FPath) (l : List (String × Content)) (fs : FS)
    (q : FPath) (h : ∀ e ∈ l, t ++ [e.1] ≠ q) :
    (restoreConfigs t fs l).read q = fs.read q := by
  induction l generalizing fs with
  | nil => rfl
  | cons a l ih =>
    rcases a with ⟨cf, c⟩
    simp only [restoreConfigs]
    rw [ih _ (fun e he => h e (List.mem_cons_of_mem _ he))]
    exact FS.read_write_ne _ _ _ _ (Ne.symm (h (cf, c) (List.mem_cons_self _ _)))

theorem settingsLocalRestore_read_ne (fs : FS) (cwd : FPath) (b : Option Content) (q : FPath)
    (h : q ≠ cwd ++ [".claude", "settings.local.json"]) :
    (settingsLocalRestore fs cwd b).read q = fs.read q := by
  unfold settingsLocalRestore
  split
  · split
    · exact FS.read_write_ne _ _ _ _ h
    · rfl
  · rfl

theorem ne_of_not_pfx {p q : FPath} (h : ¬ p <+: q) (r : FPath) : q ≠ p ++ r := by
  rintro rfl
  exact h (List.prefix_append p r)

theorem assoc2 (x : FPath) (a b : String) : (x ++ [a]) ++ [b] = x ++ [a, b] := by simp

theorem append_pair_ne {x : FPath} {a b b' : String} (h : b ≠ b') :
    x ++ [a, b] ≠ x ++ [a, b'] := by
  intro he
  have h2 := List.append_cancel_left he
  injection h2 with _ h3
  injection h3 with h4 _
  exact h h4

theorem updateClaudeSection_read_outside (fs1 : FS) (pr cwd : FPath) (force : Bool)
    (b : Option Content) (q : FPath) (h : ¬ (cwd ++ [".claude"]) <+: q) :
    (updateClaudeSection fs1 pr cwd force b).read q = fs1.read q := by
  have hcat : ∀ item : String, ¬ ((cwd ++ [".claude"]) ++ [item]) <+: q :=
    fun item hp => h ((List.prefix_append _ _).trans hp)
  have hne : ∀ r : FPath, q ≠ (cwd ++ [".claude"]) ++ r := ne_of_not_pfx h
  unfold updateClaudeSection
  split
  · rw [claudeMdStep_read_ne _ _ _ _ _ _
      (by rw [← assoc2 cwd ".claude" "CLAUDE.md"]; exact hne ["CLAUDE.md"])]
    rw [settingsJsonStep_read_ne _ _ _ _ (hne _)]
    rw [updateCatalogStep_read_outside _ _ _ _ _ (hcat _)]
    rw [updateCatalogStep_read_outside _ _ _ _ _ (hcat _)]
    rw [updateCatalogStep_read_outside _ _ _ _ _ (hcat _)]
  · rfl

/-- `updateRestoredState` writes only below the working directory. -/
theorem updateRestoredState_read_outside (fs0 : FS) (pr cwd : FPath) (force : Bool)
    (q : FPath) (h : ¬ cwd <+: q) :
    (updateRestoredState fs0 pr cwd force).read q = fs0.read q := by
  have hne : ∀ r : FPath, q ≠ cwd ++ r := ne_of_not_pfx h
  have hsub : ∀ r : FPath, ¬ (cwd ++ r) <+: q :=
    fun r hp => h ((List.prefix_append _ _).trans hp)
  simp only [updateRestoredState]
  rw [settingsLocalRestore_read_ne _ _ _ _ (hne _)]
  rw [restoreConfigs_read_outside _ _ _ _ (fun e _ => by rw [assoc2]; exact Ne.symm (hne _))]
  rw [updateClaudeSection_read_outside _ _ _ _ _ _ (hsub _)]
  rw [FS.read_copyTree_of_not_pfx _ _ _ _ _ _ (hsub _)]

/-- `updateAction` as a whole writes only below the working directory,
whether or not the run completes. -/
theorem updateAction_read_outside (fs0 : FS) (pr cwd : FPath) (force : Bool) (now : String)
    (q : FPath) (h : ¬ cwd <+: q) :
    ((updateAction fs0 pr cwd force now).2).read q = fs0.read q := by
  have hne : ∀ r : FPath, q ≠ cwd ++ r := ne_of_not_pfx h
  unfold updateAction
  cases ht : fs0.existsPath (cwd ++ [".aios-core"]) with
  | false => rfl
  | true =>
    cases hm : updateNewManifest fs0 pr cwd now with
    | some m =>
      show ((updateRestoredState fs0 pr cwd force).write
          ((cwd ++ [".aios-core"]) ++ ["install-manifest.yaml"])
          (Content.yamlManifest m)).read q = fs0.read q
      rw [FS.read_write_ne _ _ _ _ (by rw [assoc2]; exact hne _)]
      exact updateRestoredState_read_outside _ _ _ _ _ h
    | none => exact updateRestoredState_read_outside _ _ _ _ _ h

/-! ## Backup snapshot lemmas -/

theorem mem_mkBackups (fs : FS) (t : FPath) (cf : String) (c : Content) :
    ((cf, c) ∈ mkBackups fs t) ↔ (cf ∈ LOCAL_CONFIGS ∧ fs.read (t ++ [cf]) = some c) := by
  unfold mkBackups
  rw [List.mem_filterMap]
  constructor
  · rintro ⟨a, ha, hmap⟩
    rcases Option.map_eq_some'.mp hmap with ⟨c0, hc0, heq⟩
    injection heq with h1 h2
    subst h1
    subst h2
    exact ⟨ha, hc0⟩
  · rintro ⟨h1, h2⟩
    exact ⟨cf, h1, by rw [h2]; rfl⟩

theorem mkBackups_keys (fs : FS) (t : FPath) :
    ∀ e ∈ mkBackups fs t, e.1 ∈ LOCAL_CONFIGS := by
  intro e he
  rcases e with ⟨cf, c⟩
  exact ((mem_mkBackups fs t cf c).mp he).1

theorem mkBackups_pairwise (fs : FS) (t : FPath) :
    (mkBackups fs t).Pairwise (fun a b => a.1 ≠ b.1) := by
  unfold mkBackups LOCAL_CONFIGS
  simp only [List.filterMap_cons, List.filterMap_nil]
  cases h1 : fs.read (t ++ ["core-config.yaml"]) <;>
    cases h2 : fs.read (t ++ ["local-config.yaml"]) <;>
      cases h3 : fs.read (t ++ ["install-manifest.yaml"]) <;>
        simp [List.pairwise_cons]

theorem lookupBackup_install (fs : FS) (t : FPath) :
    lookupBackup (mkBackups fs t) "install-manifest.yaml"
      = fs.read (t ++ ["install-manifest.yaml"]) := by
  unfold lookupBackup mkBackups LOCAL_CONFIGS
  simp only [List.filterMap_cons, List.filterMap_nil]
  cases h1 : fs.read (t ++ ["core-config.yaml"]) <;>
    cases h2 : fs.read (t ++ ["local-config.yaml"]) <;>
      cases h3 : fs.read (t ++ ["install-manifest.yaml"]) <;>
        simp [List.find?]

theorem restoreConfigs_read_mem (t : FPath) (l : List (String × Content)) (fs : FS)
    (cf : String) (c : Content) (hmem : (cf, c) ∈ l)
    (hu : l.Pairwise (fun a b => a.1 ≠ b.1)) :
    (restoreConfigs t fs l).read (t ++ [cf]) = some c := by
  induction l generalizing fs with
  | nil => cases hmem
  | cons a l ih =>
    rw [List.pairwise_cons] at hu
    rcases List.mem_cons.mp hmem with heq | hmem'
    · subst heq
      simp only [restoreConfigs]
      rw [restoreConfigs_read_outside _ _ _ _
        (fun e he hqe => hu.1 e he
          (by injection List.append_cancel_left hqe with h5 _; exact h5.symm))]
      exact FS.read_write_self _ _ _
    · rcases a with ⟨cf', c'⟩
      simp only [restoreConfigs]
      exact ih _ hmem' hu.2

/-! ## Reading the interesting paths after an update -/

/-- `updateNewManifest` with the snapshot lookup resolved to a plain read
of the pre-update manifest file. -/
theorem updateNewManifest_eq (fs0 : FS) (pr cwd : FPath) (now : String) :
    updateNewManifest fs0 pr cwd now
      = buildUpdateManifest (fs0.read (cwd ++ [".aios-core", "install-manifest.yaml"]))
          (getPackageVersion fs0 pr)
          (readCurrentVersion fs0 (cwd ++ [".aios-core", "install-manifest.yaml"]))
          pr now := by
  unfold updateNewManifest
  rw [lookupBackup_install, assoc2]

/-- A completed `update` run: exit 0 and the manifest written over the
restored state. -/
theorem updateAction_run (fs0 : FS) (pr cwd : FPath) (force : Bool) (now : String)
    (ht : fs0.existsPath (cwd ++ [".aios-core"]) = true) (m : Manifest)
    (hm : updateNewManifest fs0 pr cwd now = some m) :
    updateAction fs0 pr cwd force now
      = (0, (updateRestoredState fs0 pr cwd force).write
          ((cwd ++ [".aios-core"]) ++ ["install-manifest.yaml"]) (Content.yamlManifest m)) := by
  unfold updateAction
  rw [ht, hm]
  rfl

/-- A crashed `update` run: the step-7 throw exits 1, leaving the restored
state without a manifest write. -/
theorem updateAction_crash (fs0 : FS) (pr cwd : FPath) (force : Bool) (now : String)
    (ht : fs0.existsPath (cwd ++ [".aios-core"]) = true)
    (hm : updateNewManifest fs0 pr cwd now = none) :
    updateAction fs0 pr cwd force now = (1, updateRestoredState fs0 pr cwd force) := by
  unfold updateAction
  rw [ht, hm]
  rfl

/-- On any path other than the manifest file, the outcome of `update` is
the restored state, whether or not step 7 crashes. -/
theorem updateAction_read_not_manifest (fs0 : FS) (pr cwd : FPath) (force : Bool)
    (now : String) (ht : fs0.existsPath (cwd ++ [".aios-core"]) = true)
    (q : FPath) (hq : q ≠ (cwd ++ [".aios-core"]) ++ ["install-manifest.yaml"]) :
    ((updateAction fs0 pr cwd force now).2).read q
      = (updateRestoredState fs0 pr cwd force).read q := by
  unfold updateAction
  rw [ht]
  cases hm : updateNewManifest fs0 pr cwd now with
  | some m =>
    show ((updateRestoredState fs0 pr cwd force).write
        ((cwd ++ [".aios-core"]) ++ ["install-manifest.yaml"])
        (Content.yamlManifest m)).read q
      = (updateRestoredState fs0 pr cwd force).read q
    exact FS.read_write_ne _ _ _ _ hq
  | none => rfl

/-- After a completed run, the manifest file holds the new record. -/
theorem updateAction_read_manifest (fs0 : FS) (pr cwd : FPath) (force : Bool) (now : String)
    (ht : fs0.existsPath (cwd ++ [".aios-core"]) = true) (m : Manifest)
    (hm : updateNewManifest fs0 pr cwd now = some m) :
    ((updateAction fs0 pr cwd force now).2).read
        (cwd ++ [".aios-core", "install-manifest.yaml"])
      = some (Content.yamlManifest m) := by
  rw [updateAction_run fs0 pr cwd force now ht m hm]
  show ((updateRestoredState fs0 pr cwd force).write
      ((cwd ++ [".aios-core"]) ++ ["install-manifest.yaml"]) (Content.yamlManifest m)).read
      (cwd ++ [".aios-core", "install-manifest.yaml"]) = some (Content.yamlManifest m)
  rw [← assoc2 cwd ".aios-core" "install-manifest.yaml"]
  exact FS.read_write_self _ _ _

theorem existsPath_target_of_read (fs : FS) (cwd : FPath) (s : String) (c : Content)
    (h : fs.read (cwd ++ [".aios-core", s]) = some c) :
    fs.existsPath (cwd ++ [".aios-core"]) = true := by
  apply FS.existsPath_of_read fs (cwd ++ [".aios-core"]) [s] c
  rw [assoc2]
  exact h

/-- After the restore step (6), every snapshotted local config — the
manifest file included — holds its pre-update bytes. -/
theorem updateRestoredState_read_localConfig (fs0 : FS) (pr cwd : FPath) (force : Bool)
    (cf : String) (hcf : cf ∈ LOCAL_CONFIGS)
    (c : Content) (hread : fs0.read (cwd ++ [".aios-core", cf]) = some c) :
    (updateRestoredState fs0 pr cwd force).read (cwd ++ [".aios-core", cf]) = some c := by
  simp only [updateRestoredState]
  rw [settingsLocalRestore_read_ne _ _ _ _ (append_ne_of_head_ne (by decide))]
  have hmem : (cf, c) ∈ mkBackups fs0 (cwd ++ [".aios-core"]) := by
    rw [mem_mkBackups]
    refine ⟨hcf, ?_⟩
    rw [assoc2]
    exact hread
  rw [← assoc2 cwd ".aios-core" cf]
  exact restoreConfigs_read_mem _ _ _ cf c hmem (mkBackups_pairwise _ _)

theorem getPackageVersion_congr (fs fs' : FS) (pr : FPath)
    (h : fs'.read (pr ++ ["package.json"]) = fs.read (pr ++ ["package.json"])) :
    getPackageVersion fs' pr = getPackageVersion fs pr := by
  unfold getPackageVersion
  rw [h]

theorem jsOr_ne_empty (v : Option String) (d : String) (hd : d ≠ "") : jsOr v d ≠ "" := by
  unfold jsOr
  split
  · split
    · exact hd
    · assumption
  · exact hd

theorem getPackageVersion_ne_empty (fs : FS) (pr : FPath) : getPackageVersion fs pr ≠ "" := by
  unfold getPackageVersion
  split
  · exact jsOr_ne_empty _ _ (by decide)
  · decide

/-! ## Claim C1 -/

/-- C1 counterexample: a concrete update run in which a file captured in
the pre-sync snapshot (`install-manifest.yaml`) does not have its
pre-update contents after `update` completes — the manifest writer
overwrites the restored bytes. -/
theorem update_manifest_not_restored_verbatim :
    fsBefore.read (["proj", ".aios-core", "install-manifest.yaml"])
      = some (Content.yamlManifest
          { installed_at := some "2025-01-01T00:00:00Z", version := some "1.0.0",
            source := some "pkg" }) ∧
    ((updateAction fsBefore ["pkg"] ["proj"] false "T1").2).read
        (["proj", ".aios-core", "install-manifest.yaml"])
      ≠ fsBefore.read (["proj", ".aios-core", "install-manifest.yaml"]) := by
  exact ⟨rfl, by decide⟩

/-- C1 (amended): every `core-config.yaml` or `local-config.yaml` captured
in the pre-sync snapshot is present with byte-identical contents after
`update`, regardless of `--force`; `install-manifest.yaml`, although also
snapshotted and restored verbatim, is then overwritten by the manifest
writer. -/
theorem update_preserves_nonmanifest_local_configs (fs0 : FS) (pr cwd : FPath)
    (force : Bool) (now : String) :
    (∀ cc, fs0.read (cwd ++ [".aios-core", "core-config.yaml"]) = some cc →
      ((updateAction fs0 pr cwd force now).2).read
          (cwd ++ [".aios-core", "core-config.yaml"]) = some cc) ∧
    (∀ lc, fs0.read (cwd ++ [".aios-core", "local-config.yaml"]) = some lc →
      ((updateAction fs0 pr cwd force now).2).read
          (cwd ++ [".aios-core", "local-config.yaml"]) = some lc) := by
  constructor
  · intro cc hcc
    rw [updateAction_read_not_manifest _ _ _ _ _ (existsPath_target_of_read _ _ _ _ hcc) _
      (by rw [assoc2]; exact append_pair_ne (by decide))]
    exact updateRestoredState_read_localConfig _ _ _ _ "core-config.yaml" (by decide) _ hcc
  · intro lc hlc
    rw [updateAction_read_not_manifest _ _ _ _ _ (existsPath_target_of_read _ _ _ _ hlc) _
      (by rw [assoc2]; exact append_pair_ne (by decide))]
    exact updateRestoredState_read_localConfig _ _ _ _ "local-config.yaml" (by decide) _ hlc

/-- C1 witness: the amended preservation applied to the concrete project
state. -/
theorem update_preserves_nonmanifest_local_configs_witness :
    ((updateAction fsBefore ["pkg"] ["proj"] false "T1").2).read
        (["proj", ".aios-core", "core-config.yaml"]) = some (Content.raw "CORE") ∧
    ((updateAction fsBefore ["pkg"] ["proj"] false "T1").2).read
        (["proj", ".aios-core", "local-config.yaml"]) = some (Content.raw "LOCAL") :=
  ⟨(update_preserves_nonmanifest_local_configs fsBefore ["pkg"] ["proj"] false "T1").1
      (Content.raw "CORE") rfl,
   (update_preserves_nonmanifest_local_configs fsBefore ["pkg"] ["proj"] false "T1").2
      (Content.raw "LOCAL") rfl⟩

/-! ## Claims C2 and C10 -/

/-- C2 counterexample: an existing but unparseable `install-manifest.yaml`
(truthy bytes that `yaml.load` rejects) makes the unguarded step-7
re-parse of the snapshot throw — `update` exits 1 and the old manifest
bytes, restored verbatim in step 6, stay on disk.  No manifest with
`previous_version = "unknown"` is written, contrary to the claimed
unreadable-manifest fallback. -/
theorem update_unreadable_manifest_crash :
    fsBadManifest.read (["proj", ".aios-core", "install-manifest.yaml"])
      = some (Content.badYaml "[") ∧
    (updateAction fsBadManifest ["pkg"] ["proj"] false "T1").1 = 1 ∧
    ((updateAction fsBadManifest ["pkg"] ["proj"] false "T1").2).read
        (["proj", ".aios-core", "install-manifest.yaml"]) = some (Content.badYaml "[") := by
  exact ⟨rfl, by decide, by decide⟩

/-- C2 (corrected): when the old manifest parses to a record with a
non-empty version V_old, `update` completes and writes `previous_version =
V_old`, `version` = the package version, `updated_at = now`, and
`installed_at` carried forward (`undefined`, i.e. omitted, when the old
record lacks it).  But the claimed unreadable-manifest fallback is wrong
in three ways: readable-but-unparseable-as-a-record content (non-empty)
yields `previous_version = "unknown"` with `installed_at` *omitted* rather
than set to the current time; an existing *empty* manifest file is falsy,
so `installed_at` is set to the current time (not carried forward, though
a snapshot exists); and content on which `yaml.load` throws crashes the
run before any write — only an *absent* manifest file behaves as claimed
(`"unknown"` plus `installed_at = now`). -/
theorem update_manifest_fields (fs0 : FS) (pr cwd : FPath) (force : Bool) (now : String) :
    (∀ mOld vOld ia,
      fs0.read (cwd ++ [".aios-core", "install-manifest.yaml"])
          = some (Content.yamlManifest mOld) →
      mOld.version = some vOld → vOld ≠ "" → mOld.installed_at = some ia →
      ((updateAction fs0 pr cwd force now).2).read
          (cwd ++ [".aios-core", "install-manifest.yaml"])
        = some (Content.yamlManifest
            { installed_at := some ia, updated_at := some now,
              version := some (getPackageVersion fs0 pr), previous_version := some vOld,
              source := some (pathToString pr) })) ∧
    (∀ s, s ≠ "" →
      fs0.read (cwd ++ [".aios-core", "install-manifest.yaml"]) = some (Content.raw s) →
      ((updateAction fs0 pr cwd force now).2).read
          (cwd ++ [".aios-core", "install-manifest.yaml"])
        = some (Content.yamlManifest
            { installed_at := none, updated_at := some now,
              version := some (getPackageVersion fs0 pr),
              previous_version := some "unknown",
              source := some (pathToString pr) })) ∧
    (fs0.read (cwd ++ [".aios-core", "install-manifest.yaml"]) = some (Content.raw "") →
      ((updateAction fs0 pr cwd force now).2).read
          (cwd ++ [".aios-core", "install-manifest.yaml"])
        = some (Content.yamlManifest
            { installed_at := some now, updated_at := some now,
              version := some (getPackageVersion fs0 pr),
              previous_version := some "unknown",
              source := some (pathToString pr) })) ∧
    (fs0.read (cwd ++ [".aios-core", "install-manifest.yaml"]) = none →
      fs0.existsPath (cwd ++ [".aios-core"]) = true →
      ((updateAction fs0 pr cwd force now).2).read
          (cwd ++ [".aios-core", "install-manifest.yaml"])
        = some (Content.yamlManifest
            { installed_at := some now, updated_at := some now,
              version := some (getPackageVersion fs0 pr),
              previous_version := some "unknown",
              source := some (pathToString pr) })) ∧
    (∀ s, fs0.read (cwd ++ [".aios-core", "install-manifest.yaml"])
          = some (Content.badYaml s) →
      (updateAction fs0 pr cwd force now).1 = 1 ∧
      ((updateAction fs0 pr cwd force now).2).read
          (cwd ++ [".aios-core", "install-manifest.yaml"])
        = some (Content.badYaml s)) := by
  refine ⟨?_, ?_, ?_, ?_, ?_⟩
  · intro mOld vOld ia h hv hvne hia
    refine updateAction_read_manifest _ _ _ _ _ (existsPath_target_of_read _ _ _ _ h) _ ?_
    rw [updateNewManifest_eq]
    unfold buildUpdateManifest step7InstalledAt readCurrentVersion
    rw [h]
    simp [yamlLoadManifest, contentTruthy, jsOr, hv, hia, hvne]
  · intro s hs h
    refine updateAction_read_manifest _ _ _ _ _ (existsPath_target_of_read _ _ _ _ h) _ ?_
    rw [updateNewManifest_eq]
    unfold buildUpdateManifest step7InstalledAt readCurrentVersion
    rw [h]
    simp [yamlLoadManifest, contentTruthy, hs]
  · intro h
    refine updateAction_read_manifest _ _ _ _ _ (existsPath_target_of_read _ _ _ _ h) _ ?_
    rw [updateNewManifest_eq]
    unfold buildUpdateManifest step7InstalledAt readCurrentVersion
    rw [h]
    simp [yamlLoadManifest, contentTruthy]
  · intro h hex
    refine updateAction_read_manifest _ _ _ _ _ hex _ ?_
    rw [updateNewManifest_eq]
    unfold buildUpdateManifest step7InstalledAt readCurrentVersion
    rw [h]
    rfl
  · intro s h
    have hex := existsPath_target_of_read _ _ _ _ h
    have hm : updateNewManifest fs0 pr cwd now = none := by
      rw [updateNewManifest_eq]
      unfold buildUpdateManifest step7InstalledAt
      rw [h]
      rfl
    constructor
    · rw [updateAction_crash fs0 pr cwd force now hex hm]
    · rw [updateAction_crash fs0 pr cwd force now hex hm]
      exact updateRestoredState_read_localConfig _ _ _ _ "install-manifest.yaml"
        (by decide) _ h

/-- C2 witness: the manifest fields after updating the concrete 1.0.0
installation with the 1.2.0 package. -/
theorem update_manifest_fields_witness :
    ((updateAction fsBefore ["pkg"] ["proj"] false "T1").2).read
        (["proj", ".aios-core", "install-manifest.yaml"])
      = some (Content.yamlManifest
          { installed_at := some "2025-01-01T00:00:00Z", updated_at := some "T1",
            version := some "1.2.0", previous_version := some "1.0.0",
            source := some "pkg" }) :=
  (update_manifest_fields fsBefore ["pkg"] ["proj"] false "T1").1
    { installed_at := some "2025-01-01T00:00:00Z", version := some "1.0.0",
      source := some "pkg" }
    "1.0.0" "2025-01-01T00:00:00Z" rfl rfl (by decide) rfl

/-- C10 (confirmed): for every run of `update` that completes (exit 0),
the final on-disk `install-manifest.yaml` equals the serialization of the
manifest record newly built by step 7 from the pre-update state — even
though the file is also snapshotted and restored verbatim by the restore
step, the write that follows overwrites it unconditionally. -/
theorem update_manifest_is_new_record (fs0 : FS) (pr cwd : FPath) (force : Bool)
    (now : String) (h : fs0.existsPath (cwd ++ [".aios-core"]) = true)
    (hc : (updateAction fs0 pr cwd force now).1 = 0) :
    ∃ m : Manifest,
      buildUpdateManifest (fs0.read (cwd ++ [".aios-core", "install-manifest.yaml"]))
        (getPackageVersion fs0 pr)
        (readCurrentVersion fs0 (cwd ++ [".aios-core", "install-manifest.yaml"]))
        pr now = some m ∧
      ((updateAction fs0 pr cwd force now).2).read
          (cwd ++ [".aios-core", "install-manifest.yaml"])
        = some (Content.yamlManifest m) := by
  cases hm : updateNewManifest fs0 pr cwd now with
  | none =>
    exfalso
    rw [updateAction_crash fs0 pr cwd force now h hm] at hc
    have h10 : (1 : Nat) = 0 := hc
    exact absurd h10 (by decide)
  | some m =>
    refine ⟨m, ?_, updateAction_read_manifest fs0 pr cwd force now h m hm⟩
    rw [← updateNewManifest_eq]
    exact hm

/-- C10 witness: the new manifest record on the concrete project state
(whose content differs from the restored backup). -/
theorem update_manifest_is_new_record_witness :
    ∃ m : Manifest,
      buildUpdateManifest (fsBefore.read (["proj", ".aios-core", "install-manifest.yaml"]))
        (getPackageVersion fsBefore ["pkg"])
        (readCurrentVersion fsBefore (["proj", ".aios-core", "install-manifest.yaml"]))
        ["pkg"] "T1" = some m ∧
      ((updateAction fsBefore ["pkg"] ["proj"] false "T1").2).read
          (["proj", ".aios-core", "install-manifest.yaml"])
        = some (Content.yamlManifest m) :=
  update_manifest_is_new_record fsBefore ["pkg"] ["proj"] false "T1" (by decide) (by decide)

/-! ## Claim C4 -/

/-- C4 counterexample: updating a 1.0.0 installation twice with the 1.2.0
package produces a second manifest that differs from the first in
`previous_version` as well, not only in `updated_at`. -/
theorem update_twice_not_only_updated_at :
    fsAfter1.read (["proj", ".aios-core", "install-manifest.yaml"])
      = some (Content.yamlManifest
          { installed_at := some "2025-01-01T00:00:00Z", updated_at := some "T1",
            version := some "1.2.0", previous_version := some "1.0.0",
            source := some "pkg" }) ∧
    fsAfter2.read (["proj", ".aios-core", "install-manifest.yaml"])
      = some (Content.yamlManifest
          { installed_at := some "2025-01-01T00:00:00Z", updated_at := some "T2",
            version := some "1.2.0", previous_version := some "1.2.0",
            source := some "pkg" }) ∧
    (Content.yamlManifest
        { installed_at := some "2025-01-01T00:00:00Z", updated_at := some "T2",
          version := some "1.2.0", previous_version := some "1.2.0",
          source := some "pkg" }
      ≠ Content.yamlManifest
        { installed_at := some "2025-01-01T00:00:00Z", updated_at := some "T2",
          version := some "1.2.0", previous_version := some "1.0.0",
          source := some "pkg" }) := by
  exact ⟨rfl, rfl, by decide⟩

/-- C4 (amended): running `update` twice with identical package content,
when the first run completes, the second also completes and its manifest
differs from the first only in `updated_at` and `previous_version`, with
the second `previous_version` equal to the first run's `version`; so when
the installation was already at the package version before the first run,
the two manifests differ only in `updated_at`. -/
theorem update_twice_manifest_relation (fs0 : FS) (pr cwd : FPath) (force : Bool)
    (now1 now2 : String) (hd : RootsDisjoint cwd pr)
    (ht : fs0.existsPath (cwd ++ [".aios-core"]) = true)
    (hc : (updateAction fs0 pr cwd force now1).1 = 0) :
    ∃ m1 m2 : Manifest,
      ((updateAction fs0 pr cwd force now1).2).read
          (cwd ++ [".aios-core", "install-manifest.yaml"])
        = some (Content.yamlManifest m1) ∧
      ((updateAction (updateAction fs0 pr cwd force now1).2 pr cwd force now2).2).read
          (cwd ++ [".aios-core", "install-manifest.yaml"])
        = some (Content.yamlManifest m2) ∧
      m2 = { m1 with updated_at := some now2, previous_version := m1.version } := by
  cases hmo : updateNewManifest fs0 pr cwd now1 with
  | none =>
    exfalso
    rw [updateAction_crash fs0 pr cwd force now1 ht hmo] at hc
    have h10 : (1 : Nat) = 0 := hc
    exact absurd h10 (by decide)
  | some m1 =>
    rw [updateNewManifest_eq] at hmo
    unfold buildUpdateManifest at hmo
    rcases Option.map_eq_some'.mp hmo with ⟨ia, hia, hm1⟩
    have hm1' : m1 = { installed_at := ia, updated_at := some now1,
                       version := some (getPackageVersion fs0 pr),
                       previous_version := some (readCurrentVersion fs0
                         (cwd ++ [".aios-core", "install-manifest.yaml"])),
                       source := some (pathToString pr) } := hm1.symm
    subst hm1'
    have hmo' : updateNewManifest fs0 pr cwd now1
        = some { installed_at := ia, updated_at := some now1,
                 version := some (getPackageVersion fs0 pr),
                 previous_version := some (readCurrentVersion fs0
                   (cwd ++ [".aios-core", "install-manifest.yaml"])),
                 source := some (pathToString pr) } := by
      rw [updateNewManifest_eq]
      unfold buildUpdateManifest
      rw [hia]
      rfl
    have hr1 : ((updateAction fs0 pr cwd force now1).2).read
        (cwd ++ [".aios-core", "install-manifest.yaml"])
        = some (Content.yamlManifest
            { installed_at := ia, updated_at := some now1,
              version := some (getPackageVersion fs0 pr),
              previous_version := some (readCurrentVersion fs0
                (cwd ++ [".aios-core", "install-manifest.yaml"])),
              source := some (pathToString pr) }) :=
      updateAction_read_manifest fs0 pr cwd force now1 ht _ hmo'
    have ht2 : ((updateAction fs0 pr cwd force now1).2).existsPath
        (cwd ++ [".aios-core"]) = true :=
      existsPath_target_of_read _ _ _ _ hr1
    have hv2 : getPackageVersion ((updateAction fs0 pr cwd force now1).2) pr
        = getPackageVersion fs0 pr :=
      getPackageVersion_congr _ _ _
        (updateAction_read_outside _ _ _ _ _ _ (hd ["package.json"]))
    have hcv2 : readCurrentVersion ((updateAction fs0 pr cwd force now1).2)
        (cwd ++ [".aios-core", "install-manifest.yaml"]) = getPackageVersion fs0 pr := by
      unfold readCurrentVersion
      rw [hr1]
      show (if getPackageVersion fs0 pr = "" then "unknown" else getPackageVersion fs0 pr)
          = getPackageVersion fs0 pr
      rw [if_neg (getPackageVersion_ne_empty fs0 pr)]
    have hm2o : updateNewManifest ((updateAction fs0 pr cwd force now1).2) pr cwd now2
        = some { installed_at := ia, updated_at := some now2,
                 version := some (getPackageVersion fs0 pr),
                 previous_version := some (getPackageVersion fs0 pr),
                 source := some (pathToString pr) } := by
      rw [updateNewManifest_eq, hr1, hv2, hcv2]
      rfl
    have hr2 := updateAction_read_manifest ((updateAction fs0 pr cwd force now1).2)
      pr cwd force now2 ht2 _ hm2o
    exact ⟨_, _, hr1, hr2, rfl⟩

/-- C4 witness: the amended two-run relation at the concrete project
state. -/
theorem update_twice_manifest_relation_witness :
    ∃ m1 m2 : Manifest,
      ((updateAction fsBefore ["pkg"] ["proj"] false "T1").2).read
          (["proj", ".aios-core", "install-manifest.yaml"])
        = some (Content.yamlManifest m1) ∧
      ((updateAction (updateAction fsBefore ["pkg"] ["proj"] false "T1").2
          ["pkg"] ["proj"] false "T2").2).read
          (["proj", ".aios-core", "install-manifest.yaml"])
        = some (Content.yamlManifest m2) ∧
      m2 = { m1 with updated_at := some "T2", previous_version := m1.version } :=
  update_twice_manifest_relation fsBefore ["pkg"] ["proj"] false "T1" "T2"
    (rootsDisjoint_of_head_ne [] [] (by decide)) (by decide) (by decide)

/-! ## Claim C5 -/

/-- C5 (confirmed): `install` without `--force` on a target that already
has `.aios-core` exits 1 and leaves the filesystem untouched; `install`
from the package root or its parent exits 1 untouched; in every other case
it exits 0. -/
theorem install_guards (fs0 : FS) (pr cwd : FPath) (force skipDeps : Bool) (now : String) :
    ((fs0.existsPath (cwd ++ [".aios-core"]) = true ∧ force = false) →
      installAction fs0 pr cwd force skipDeps now = (1, fs0)) ∧
    ((cwd = pr ∨ cwd = pr.dropLast) →
      installAction fs0 pr cwd force skipDeps now = (1, fs0)) ∧
    (¬ (fs0.existsPath (cwd ++ [".aios-core"]) = true ∧ force = false) →
      ¬ (cwd = pr ∨ cwd = pr.dropLast) →
      (installAction fs0 pr cwd force skipDeps now).1 = 0) := by
  refine ⟨?_, ?_, ?_⟩
  · rintro ⟨h1, h2⟩
    unfold installAction
    rw [h1, h2]
    rfl
  · intro h2
    unfold installAction
    have hb : (cwd == pr || cwd == pr.dropLast) = true := by
      rcases h2 with rfl | h2
      · simp
      · rw [h2]
        simp
    by_cases h1 : (fs0.existsPath (cwd ++ [".aios-core"]) && !force) = true
    · rw [if_pos h1]
    · rw [if_neg h1, if_pos hb]
  · intro h1 h2
    unfold installAction
    have hb1 : (fs0.existsPath (cwd ++ [".aios-core"]) && !force) = false := by
      cases he : fs0.existsPath (cwd ++ [".aios-core"]) <;> cases hf : force <;> simp_all
    have hb2 : (cwd == pr || cwd == pr.dropLast) = false := by
      rw [Bool.or_eq_false_iff]
      constructor
      · exact beq_eq_false_iff_ne.mpr (fun he => h2 (Or.inl he))
      · exact beq_eq_false_iff_ne.mpr (fun he => h2 (Or.inr he))
    rw [if_neg (by rw [hb1]; simp), if_neg (by rw [hb2]; simp)]

/-- C5 witness: on the concrete installed project, a forceless reinstall
exits 1 with the filesystem unchanged; on a fresh project root the install
exits 0. -/
theorem install_guards_witness :
    installAction fsBefore ["pkg"] ["proj"] false false "T1" = (1, fsBefore) ∧
    (installAction ⟨pkgFiles⟩ ["pkg"] ["proj2"] false false "T1").1 = 0 :=
  ⟨(install_guards fsBefore ["pkg"] ["proj"] false false "T1").1 ⟨by decide, rfl⟩,
   (install_guards ⟨pkgFiles⟩ ["pkg"] ["proj2"] false false "T1").2.2
    (by decide) (by decide)⟩

/-! ## Claim C6 -/

/-- C6 (confirmed): `sync` exits 1 and writes nothing when either the
`.claude` source tree or the installed `.aios-core` directory is missing;
when both are present it exits 0. -/
theorem sync_guards (fs0 : FS) (cwd : FPath) :
    ((fs0.existsPath (cwd ++ [".claude"]) = false ∨
        fs0.existsPath (cwd ++ [".aios-core"]) = false) →
      syncAction fs0 cwd = (1, fs0)) ∧
    (fs0.existsPath (cwd ++ [".claude"]) = true →
      fs0.existsPath (cwd ++ [".aios-core"]) = true →
      (syncAction fs0 cwd).1 = 0) := by
  constructor
  · intro h
    unfold syncAction
    rcases h with h | h
    · rw [if_pos (by rw [h]; rfl)]
    · by_cases h1 : fs0.existsPath (cwd ++ [".claude"]) = true
      · rw [if_neg (by rw [h1]; simp), if_pos (by rw [h]; rfl)]
      · rw [if_pos (by rw [Bool.eq_false_iff.mpr h1]; rfl)]
  · intro h1 h2
    unfold syncAction
    rw [if_neg (by rw [h1]; simp), if_neg (by rw [h2]; simp)]

/-- C6 witness: `sync` on a directory with no installed framework exits 1
unchanged; on the concrete hub it exits 0. -/
theorem sync_guards_witness :
    syncAction ⟨[(["hub", ".claude", "CLAUDE.md"], Content.raw "X")]⟩ ["hub"]
      = (1, ⟨[(["hub", ".claude", "CLAUDE.md"], Content.raw "X")]⟩) ∧
    (syncAction fsSyncLeftover ["hub"]).1 = 0 :=
  ⟨(sync_guards ⟨[(["hub", ".claude", "CLAUDE.md"], Content.raw "X")]⟩ ["hub"]).1
      (Or.inr (by decide)),
   (sync_guards fsSyncLeftover ["hub"]).2 (by decide) (by decide)⟩

/-! ## Claim C9 -/

/-- C9 counterexample: on a package.json that parses but has no `version`
field, the install/update readers return `"0.0.0"` but the CLI entry
point's reader yields `undefined` (`none`), not `"0.0.0"`. -/
theorem cli_version_missing_field_not_default :
    fsNoVersion.read (["pkg", "package.json"]) = some (Content.packageJson none) ∧
    getPackageVersion fsNoVersion ["pkg"] = "0.0.0" ∧
    cliPackageVersion fsNoVersion ["pkg"] ≠ some "0.0.0" := by
  exact ⟨rfl, rfl, by decide⟩

/-- C9 (amended): the install and update module readers agree and return
the declared version on success and `"0.0.0"` on every failure, including
an absent `version` field; the CLI entry point's reader returns `"0.0.0"`
on read or parse failure, the declared version on success, but `undefined`
(`none`) when the parsed package.json lacks a `version` field. -/
theorem version_reader_behavior (fs : FS) (root : FPath) :
    (installGetPackageVersion fs root = getPackageVersion fs root) ∧
    (fs.read (root ++ ["package.json"]) = none →
      getPackageVersion fs root = "0.0.0" ∧ cliPackageVersion fs root = some "0.0.0") ∧
    (∀ s, fs.read (root ++ ["package.json"]) = some (Content.raw s) →
      getPackageVersion fs root = "0.0.0" ∧ cliPackageVersion fs root = some "0.0.0") ∧
    (∀ v, fs.read (root ++ ["package.json"]) = some (Content.packageJson (some v)) →
      v ≠ "" →
      getPackageVersion fs root = v ∧ cliPackageVersion fs root = some v) ∧
    (fs.read (root ++ ["package.json"]) = some (Content.packageJson none) →
      getPackageVersion fs root = "0.0.0" ∧ cliPackageVersion fs root = none) := by
  refine ⟨rfl, ?_, ?_, ?_, ?_⟩
  · intro h
    unfold getPackageVersion cliPackageVersion
    rw [h]
    exact ⟨rfl, rfl⟩
  · intro s h
    unfold getPackageVersion cliPackageVersion
    rw [h]
    exact ⟨rfl, rfl⟩
  · intro v h hv
    unfold getPackageVersion cliPackageVersion
    rw [h]
    refine ⟨?_, rfl⟩
    show (if v = "" then "0.0.0" else v) = v
    rw [if_neg hv]
  · intro h
    unfold getPackageVersion cliPackageVersion
    rw [h]
    exact ⟨rfl, rfl⟩

/-- C9 witness: the reader behavior instantiated at the concrete
version-less package state. -/
theorem version_reader_behavior_witness :
    getPackageVersion fsNoVersion ["pkg"] = "0.0.0" ∧
    cliPackageVersion fsNoVersion ["pkg"] = none :=
  (version_reader_behavior fsNoVersion ["pkg"]).2.2.2.2 rfl

/-! ## Claim C7 -/

theorem append_single_ne_append_pair {x : FPath} {a b : String} {rel : FPath} (h : a ≠ b) :
    (x ++ [a]) ++ rel ≠ x ++ [b] := by
  intro he
  rw [List.append_assoc] at he
  have h2 := List.append_cancel_left he
  rw [List.singleton_append] at h2
  injection h2 with h3 _
  exact h h3

theorem existsPath_mono (fs : FS) (p : FPath) (x : String)
    (h : fs.existsPath (p ++ [x]) = true) : fs.existsPath p = true := by
  rcases (FS.existsPath_iff_read fs (p ++ [x])).mp h with ⟨qq, hq⟩
  refine (FS.existsPath_iff_read fs p).mpr ⟨[x] ++ qq, ?_⟩
  rw [← List.append_assoc]
  exact hq

/-- Inside the `.claude` refresh, the template file under the package root
is untouched, so the `CLAUDE.md` decision reads the original template. -/
theorem updateClaudeSection_read_claudeMd (fs1 : FS) (pr cwd : FPath) (force : Bool)
    (b : Option Content) (templ : Content) (hd : RootsDisjoint cwd pr)
    (ht : fs1.read (pr ++ ["claude-config", "CLAUDE.md"]) = some templ) :
    (updateClaudeSection fs1 pr cwd force b).read (cwd ++ [".claude", "CLAUDE.md"])
      = if claudeMdCond b templ force then some templ
        else fs1.read (cwd ++ [".claude", "CLAUDE.md"]) := by
  have htx : fs1.read ((pr ++ ["claude-config"]) ++ ["CLAUDE.md"]) = some templ := by
    rw [assoc2]
    exact ht
  have hex : fs1.existsPath (pr ++ ["claude-config"]) = true :=
    FS.existsPath_of_read fs1 (pr ++ ["claude-config"]) ["CLAUDE.md"] templ htx
  have hcatsrc : ∀ (item : String) (fsx : FS),
      (updateCatalogStep fsx (pr ++ ["claude-config"]) (cwd ++ [".claude"]) item).read
        ((pr ++ ["claude-config"]) ++ ["CLAUDE.md"])
      = fsx.read ((pr ++ ["claude-config"]) ++ ["CLAUDE.md"]) := by
    intro item fsx
    apply updateCatalogStep_read_outside
    rw [assoc2 pr "claude-config" "CLAUDE.md"]
    exact hd.not_pfx ((List.prefix_append _ _).trans (List.prefix_append _ _)) _
  have hset : ((pr ++ ["claude-config"]) ++ ["CLAUDE.md"])
      ≠ (cwd ++ [".claude"]) ++ ["settings.json"] := by
    intro he
    refine hd (["claude-config"] ++ ["CLAUDE.md"]) ?_
    rw [← List.append_assoc, he]
    exact (List.prefix_append _ _).trans (List.prefix_append _ _)
  have hfsd : (settingsJsonStep
        (updateCatalogStep
          (updateCatalogStep
            (updateCatalogStep fs1
              (pr ++ ["claude-config"]) (cwd ++ [".claude"]) "commands")
            (pr ++ ["claude-config"]) (cwd ++ [".claude"]) "rules")
          (pr ++ ["claude-config"]) (cwd ++ [".claude"]) "hooks")
        (pr ++ ["claude-config"]) (cwd ++ [".claude"])).read
      ((pr ++ ["claude-config"]) ++ ["CLAUDE.md"]) = some templ := by
    rw [settingsJsonStep_read_ne _ _ _ _ hset, hcatsrc, hcatsrc, hcatsrc]
    exact htx
  unfold updateClaudeSection
  rw [if_pos hex]
  unfold claudeMdStep
  simp only [hfsd]
  by_cases hcond : claudeMdCond b templ force = true
  · rw [if_pos hcond, if_pos hcond]
    exact FS.read_write_self _ _ _
  · rw [if_neg hcond, if_neg hcond]
    rw [← assoc2 cwd ".claude" "CLAUDE.md"]
    rw [settingsJsonStep_read_ne _ _ _ _
      (by rw [assoc2, assoc2]; exact append_pair_ne (by decide))]
    rw [updateCatalogStep_read_outside _ _ _ _ _
      (fun hp => (by decide : ("hooks" : String) ≠ "CLAUDE.md")
        (List.cons_prefix_cons.mp ((List.prefix_append_right_inj (cwd ++ [".claude"])).mp hp)).1)]
    rw [updateCatalogStep_read_outside _ _ _ _ _
      (fun hp => (by decide : ("rules" : String) ≠ "CLAUDE.md")
        (List.cons_prefix_cons.mp ((List.prefix_append_right_inj (cwd ++ [".claude"])).mp hp)).1)]
    rw [updateCatalogStep_read_outside _ _ _ _ _
      (fun hp => (by decide : ("commands" : String) ≠ "CLAUDE.md")
        (List.cons_prefix_cons.mp ((List.prefix_append_right_inj (cwd ++ [".claude"])).mp hp)).1)]

/-- After steps 2-6 of update, the `CLAUDE.md` decision is visible at the
working directory. -/
theorem updateRestoredState_read_claudeMd (fs0 : FS) (pr cwd : FPath) (force : Bool)
    (templ : Content) (hd : RootsDisjoint cwd pr)
    (ht : fs0.read (pr ++ ["claude-config", "CLAUDE.md"]) = some templ) :
    (updateRestoredState fs0 pr cwd force).read (cwd ++ [".claude", "CLAUDE.md"])
      = if claudeMdCond (fs0.read (cwd ++ [".claude", "CLAUDE.md"])) templ force
        then some templ
        else fs0.read (cwd ++ [".claude", "CLAUDE.md"]) := by
  simp only [updateRestoredState]
  rw [settingsLocalRestore_read_ne _ _ _ _ (append_pair_ne (by decide))]
  rw [restoreConfigs_read_outside _ _ _ _
    (fun e _ => by rw [assoc2]; exact append_ne_of_head_ne (by decide))]
  have hfs1 : (fs0.copyTree pr (cwd ++ [".aios-core"]) (updateCopyFilter force) true).read
      (pr ++ ["claude-config", "CLAUDE.md"]) = some templ := by
    rw [FS.read_copyTree_of_not_pfx _ _ _ _ _ _
      (hd.not_pfx (List.prefix_append _ _) _)]
    exact ht
  rw [updateClaudeSection_read_claudeMd _ _ _ _ _ _ hd hfs1]
  rw [FS.read_copyTree_of_not_pfx _ _ _ _ _ _
    (fun hp => (by decide : (".aios-core" : String) ≠ ".claude")
      (List.cons_prefix_cons.mp ((List.prefix_append_right_inj cwd).mp hp)).1)]

/-- C7 counterexample: a local `.claude/CLAUDE.md` that exists but is
empty is not byte-identical to the non-empty template, yet `update`
without `--force` overwrites it (JavaScript treats the empty backup string
as falsy, i.e. as "no local copy"). -/
theorem update_claudeMd_empty_local_overwritten :
    fsEmptyClaudeMd.read (["proj", ".claude", "CLAUDE.md"]) = some (Content.raw "") ∧
    Content.raw "" ≠ Content.raw "TEMPLATE" ∧
    ((updateAction fsEmptyClaudeMd ["pkg"] ["proj"] false "T1").2).read
        (["proj", ".claude", "CLAUDE.md"]) = some (Content.raw "TEMPLATE") := by
  exact ⟨rfl, by decide, by decide⟩

/-- C7 (amended): during `update`, `.claude/CLAUDE.md` is overwritten by
the incoming template if and only if (a) no local copy exists, or (a') the
local copy is empty (the code's JavaScript falsiness check treats the
empty backup like an absent file), or (b) the local copy is byte-identical
to the incoming template, or (c) `--force` is set; in every other case the
local contents are left untouched, with customization judged by literal
byte equality and no normalization. -/
theorem update_claudeMd_policy (fs0 : FS) (pr cwd : FPath) (force : Bool) (now : String)
    (templ : Content) (hd : RootsDisjoint cwd pr)
    (ht : fs0.read (pr ++ ["claude-config", "CLAUDE.md"]) = some templ)
    (hex : fs0.existsPath (cwd ++ [".aios-core"]) = true) :
    (((updateAction fs0 pr cwd force now).2).read (cwd ++ [".claude", "CLAUDE.md"])
      = if claudeMdCond (fs0.read (cwd ++ [".claude", "CLAUDE.md"])) templ force
        then some templ
        else fs0.read (cwd ++ [".claude", "CLAUDE.md"])) ∧
    (claudeMdCond (fs0.read (cwd ++ [".claude", "CLAUDE.md"])) templ force = true ↔
      (fs0.read (cwd ++ [".claude", "CLAUDE.md"]) = none ∨
       fs0.read (cwd ++ [".claude", "CLAUDE.md"]) = some (Content.raw "") ∨
       fs0.read (cwd ++ [".claude", "CLAUDE.md"]) = some templ ∨
       force = true)) := by
  constructor
  · rw [updateAction_read_not_manifest _ _ _ _ _ hex _
      (by rw [assoc2]; exact append_ne_of_head_ne (by decide))]
    exact updateRestoredState_read_claudeMd _ _ _ _ _ hd ht
  · unfold claudeMdCond contentTruthy
    cases hb : fs0.read (cwd ++ [".claude", "CLAUDE.md"]) with
    | none => simp
    | some c =>
      cases c with
      | raw s =>
        by_cases hs : s = ""
        · subst hs
          simp
        · simp [hs, beq_iff_eq]
      | yamlManifest m => simp [beq_iff_eq]
      | packageJson v => simp [beq_iff_eq]
      | badYaml s => simp [beq_iff_eq]

/-- C7 witness: on the concrete project whose CLAUDE.md is customized
(`"CUSTOM"` ≠ `"TEMPLATE"`), an unforced update leaves it untouched. -/
theorem update_claudeMd_policy_witness :
    ((updateAction fsBefore ["pkg"] ["proj"] false "T1").2).read
        (["proj", ".claude", "CLAUDE.md"]) = some (Content.raw "CUSTOM") := by
  have h := (update_claudeMd_policy fsBefore ["pkg"] ["proj"] false "T1"
    (Content.raw "TEMPLATE") (rootsDisjoint_of_head_ne [] [] (by decide)) rfl (by decide)).1
  exact h.trans (by decide)

/-! ## Claim C3 -/

/-- Through the three catalog replacements, the catalog named `item` ends
up exactly mirroring its package source subtree. -/
theorem catalogSection_read (fs1 : FS) (pr cwd : FPath) (item : String)
    (hitem : item = "commands" ∨ item = "rules" ∨ item = "hooks")
    (hd : RootsDisjoint cwd pr)
    (hsrc : fs1.existsPath ((pr ++ ["claude-config"]) ++ [item]) = true) (rel : FPath) :
    (updateCatalogStep (updateCatalogStep (updateCatalogStep fs1
        (pr ++ ["claude-config"]) (cwd ++ [".claude"]) "commands")
        (pr ++ ["claude-config"]) (cwd ++ [".claude"]) "rules")
        (pr ++ ["claude-config"]) (cwd ++ [".claude"]) "hooks").read
      (((cwd ++ [".claude"]) ++ [item]) ++ rel)
    = fs1.read (((pr ++ ["claude-config"]) ++ [item]) ++ rel) := by
  have hsrcpath : ∀ (qq : FPath) (it2 : String) (fsx : FS),
      (updateCatalogStep fsx (pr ++ ["claude-config"]) (cwd ++ [".claude"]) it2).read
        (((pr ++ ["claude-config"]) ++ [item]) ++ qq)
      = fsx.read (((pr ++ ["claude-config"]) ++ [item]) ++ qq) := by
    intro qq it2 fsx
    apply updateCatalogStep_read_outside
    have hform : ((pr ++ ["claude-config"]) ++ [item]) ++ qq
        = pr ++ (["claude-config"] ++ ([item] ++ qq)) := by simp
    rw [hform]
    exact hd.not_pfx ((List.prefix_append _ _).trans (List.prefix_append _ _)) _
  have hpres : ∀ (it2 : String) (fsx : FS),
      fsx.existsPath ((pr ++ ["claude-config"]) ++ [item]) = true →
      (updateCatalogStep fsx (pr ++ ["claude-config"]) (cwd ++ [".claude"]) it2).existsPath
        ((pr ++ ["claude-config"]) ++ [item]) = true := by
    intro it2 fsx hx
    exact FS.existsPath_true_of_reads _ _ _ (fun qq => hsrcpath qq it2 fsx) hx
  have hfire : ∀ (fsx : FS), fsx.existsPath ((pr ++ ["claude-config"]) ++ [item]) = true →
      (updateCatalogStep fsx (pr ++ ["claude-config"]) (cwd ++ [".claude"]) item).read
        (((cwd ++ [".claude"]) ++ [item]) ++ rel)
      = fsx.read (((pr ++ ["claude-config"]) ++ [item]) ++ rel) := by
    intro fsx hx
    unfold updateCatalogStep
    rw [if_pos hx]
    apply FS.read_removeCopy_dest
    have hform : ((pr ++ ["claude-config"]) ++ [item]) ++ rel
        = pr ++ (["claude-config"] ++ ([item] ++ rel)) := by simp
    rw [hform]
    exact hd.not_pfx ((List.prefix_append _ _).trans (List.prefix_append _ _)) _
  have hafter : ∀ (it2 : String), it2 ≠ item → ∀ (fsx : FS),
      (updateCatalogStep fsx (pr ++ ["claude-config"]) (cwd ++ [".claude"]) it2).read
        (((cwd ++ [".claude"]) ++ [item]) ++ rel)
      = fsx.read (((cwd ++ [".claude"]) ++ [item]) ++ rel) := by
    intro it2 hne fsx
    apply updateCatalogStep_read_outside
    intro hp
    rw [List.append_assoc (cwd ++ [".claude"]) [item] rel] at hp
    have h2 := (List.prefix_append_right_inj (cwd ++ [".claude"])).mp hp
    exact hne (List.cons_prefix_cons.mp h2).1
  rcases hitem with rfl | rfl | rfl
  · rw [hafter "hooks" (by decide) _, hafter "rules" (by decide) _, hfire _ hsrc]
  · rw [hafter "hooks" (by decide) _, hfire _ (hpres "commands" _ hsrc),
      hsrcpath rel "commands" _]
  · rw [hfire _ (hpres "rules" _ (hpres "commands" _ hsrc)), hsrcpath rel "rules" _,
      hsrcpath rel "commands" _]

theorem updateClaudeSection_read_catalog (fs1 : FS) (pr cwd : FPath) (force : Bool)
    (b : Option Content) (item : String)
    (hitem : item = "commands" ∨ item = "rules" ∨ item = "hooks")
    (hd : RootsDisjoint cwd pr)
    (hsrc : fs1.existsPath ((pr ++ ["claude-config"]) ++ [item]) = true) (rel : FPath) :
    (updateClaudeSection fs1 pr cwd force b).read (((cwd ++ [".claude"]) ++ [item]) ++ rel)
      = fs1.read (((pr ++ ["claude-config"]) ++ [item]) ++ rel) := by
  have hne_md : (((cwd ++ [".claude"]) ++ [item]) ++ rel) ≠ cwd ++ [".claude", "CLAUDE.md"] := by
    rw [← assoc2 cwd ".claude" "CLAUDE.md"]
    apply append_single_ne_append_pair
    rcases hitem with rfl | rfl | rfl <;> decide
  have hne_set : (((cwd ++ [".claude"]) ++ [item]) ++ rel)
      ≠ (cwd ++ [".claude"]) ++ ["settings.json"] := by
    apply append_single_ne_append_pair
    rcases hitem with rfl | rfl | rfl <;> decide
  unfold updateClaudeSection
  rw [if_pos (existsPath_mono _ _ _ hsrc)]
  rw [claudeMdStep_read_ne _ _ _ _ _ _ hne_md]
  rw [settingsJsonStep_read_ne _ _ _ _ hne_set]
  exact catalogSection_read fs1 pr cwd item hitem hd hsrc rel

theorem append_cons2_ne {x : FPath} {a b a' b' : String} {r s : FPath} (h : b ≠ b') :
    x ++ (a :: b :: r) ≠ x ++ (a' :: b' :: s) := by
  intro he
  have h2 := List.append_cancel_left he
  injection h2 with _ h3
  injection h3 with h4 _
  exact h h4

theorem updateRestoredState_read_catalog (fs0 : FS) (pr cwd : FPath) (force : Bool)
    (item : String) (hitem : item = "commands" ∨ item = "rules" ∨ item = "hooks")
    (hd : RootsDisjoint cwd pr)
    (hsrc0 : fs0.existsPath (pr ++ ["claude-config", item]) = true) (rel : FPath) :
    (updateRestoredState fs0 pr cwd force).read (cwd ++ [".claude", item] ++ rel)
      = fs0.read (pr ++ ["claude-config", item] ++ rel) := by
  have hqform : (cwd ++ [".claude", item]) ++ rel = cwd ++ (".claude" :: item :: rel) := by
    simp
  have hsform : (pr ++ ["claude-config", item]) ++ rel
      = ((pr ++ ["claude-config"]) ++ [item]) ++ rel := by simp
  have hsform2 : ((pr ++ ["claude-config"]) ++ [item]) ++ rel
      = pr ++ ("claude-config" :: item :: rel) := by simp
  have hsrcout : ∀ qq : FPath,
      ¬ (cwd ++ [".aios-core"]) <+: (((pr ++ ["claude-config"]) ++ [item]) ++ qq) := by
    intro qq
    have hform : ((pr ++ ["claude-config"]) ++ [item]) ++ qq
        = pr ++ (["claude-config"] ++ ([item] ++ qq)) := by simp
    rw [hform]
    exact hd.not_pfx (List.prefix_append _ _) _
  have hsrc1 : (fs0.copyTree pr (cwd ++ [".aios-core"]) (updateCopyFilter force)
      true).existsPath ((pr ++ ["claude-config"]) ++ [item]) = true := by
    apply FS.existsPath_true_of_reads fs0
    · intro qq
      exact FS.read_copyTree_of_not_pfx _ _ _ _ _ _ (hsrcout qq)
    · rw [assoc2]
      exact hsrc0
  simp only [updateRestoredState]
  rw [settingsLocalRestore_read_ne _ _ _ _ (by
    rw [hqform]
    apply append_cons2_ne
    rcases hitem with rfl | rfl | rfl <;> decide)]
  rw [restoreConfigs_read_outside _ _ _ _ (fun e _ => by
    rw [assoc2, hqform]
    exact append_ne_of_head_ne (by decide))]
  rw [← assoc2 cwd ".claude" item]
  rw [updateClaudeSection_read_catalog _ _ _ _ _ item hitem hd hsrc1 rel]
  rw [FS.read_copyTree_of_not_pfx _ _ _ _ _ _ (hsrcout rel)]
  rw [← assoc2 pr "claude-config" item]

/-- C3 (confirmed): for every catalog subtree (`commands`, `rules`,
`hooks`) present in the package's `claude-config` source, `update` removes
the destination subtree under `.claude` and copies the new one, so the
destination catalog afterwards equals the package catalog exactly — fully
replaced, never merged, with no stale files. -/
theorem update_replaces_catalogs (fs0 : FS) (pr cwd : FPath) (force : Bool) (now : String)
    (hd : RootsDisjoint cwd pr) (ht : fs0.existsPath (cwd ++ [".aios-core"]) = true)
    (item : String) (hitem : item = "commands" ∨ item = "rules" ∨ item = "hooks")
    (hsrc : fs0.existsPath (pr ++ ["claude-config", item]) = true) (rel : FPath) :
    ((updateAction fs0 pr cwd force now).2).read (cwd ++ [".claude", item] ++ rel)
      = fs0.read (pr ++ ["claude-config", item] ++ rel) := by
  have hqform : (cwd ++ [".claude", item]) ++ rel = cwd ++ (".claude" :: item :: rel) := by
    simp
  rw [updateAction_read_not_manifest _ _ _ _ _ ht _ (by
    rw [hqform, assoc2]
    exact append_ne_of_head_ne (by decide))]
  exact updateRestoredState_read_catalog fs0 pr cwd force item hitem hd hsrc rel

/-- C3 witness: on the concrete project, the stale `commands/old.md` is
gone after update and the package's `commands/new.md` is present. -/
theorem update_replaces_catalogs_witness :
    ((updateAction fsBefore ["pkg"] ["proj"] false "T1").2).read
        (["proj", ".claude", "commands", "old.md"]) = none ∧
    ((updateAction fsBefore ["pkg"] ["proj"] false "T1").2).read
        (["proj", ".claude", "commands", "new.md"]) = some (Content.raw "NEW") := by
  have h1 := update_replaces_catalogs fsBefore ["pkg"] ["proj"] false "T1"
    (rootsDisjoint_of_head_ne [] [] (by decide)) (by decide) "commands" (Or.inl rfl)
    (by decide) ["old.md"]
  have h2 := update_replaces_catalogs fsBefore ["pkg"] ["proj"] false "T1"
    (rootsDisjoint_of_head_ne [] [] (by decide)) (by decide) "commands" (Or.inl rfl)
    (by decide) ["new.md"]
  exact ⟨h1.trans (by decide), h2.trans (by decide)⟩

/-! ## Claim C8 -/

theorem syncStep_read_outside (claudeDir ccDir : FPath) (fs : FS) (item : String) (q : FPath)
    (h : ¬ (ccDir ++ [item]) <+: q) :
    (syncStep claudeDir ccDir fs item).read q = fs.read q := by
  unfold syncStep
  split
  · rfl
  split
  · rw [FS.read_copyTree_of_not_pfx _ _ _ _ _ _ h, FS.read_removeTree_of_not_pfx _ _ _ h]
  · split
    · exact FS.read_write_ne _ _ _ _ (fun he => h (by rw [he]))
    · rfl

theorem relOk_full {f : FPath → Bool} {rel : FPath} (h : relOk f rel = true) (hne : rel ≠ []) :
    f rel = true := by
  unfold relOk at h
  rw [List.all_eq_true] at h
  have hpos : 0 < rel.length := List.length_pos.mpr hne
  have hmem : rel.length - 1 ∈ List.range rel.length := by
    rw [List.mem_range]
    omega
  have h2 : f (rel.take (rel.length - 1 + 1)) = true := h _ hmem
  rw [Nat.sub_add_cancel hpos, List.take_length] at h2
  exact h2

theorem syncFilter_excludes {rel : FPath} (h : rel.getLast? = some "settings.local.json") :
    syncFilter rel = false := by
  unfold syncFilter
  rw [h]
  decide

/-- A sync step never creates a file whose basename is the local-only
settings file: after the step such a path is either gone (its catalog was
wiped and the filtered copy skipped it) or carries its old content. -/
theorem syncStep_never_sync (claudeDir ccDir : FPath) (fs : FS) (item : String) (q : FPath)
    (hbase : q.getLast? = some "settings.local.json")
    (hitem : item ≠ "settings.local.json") :
    (syncStep claudeDir ccDir fs item).read q = none ∨
    (syncStep claudeDir ccDir fs item).read q = fs.read q := by
  by_cases hq : (ccDir ++ [item]) <+: q
  case neg => exact Or.inr (syncStep_read_outside _ _ _ _ _ hq)
  case pos =>
    unfold syncStep
    split
    · exact Or.inr rfl
    split
    · rcases FS.read_copyTree_cases (fs.removeTree (ccDir ++ [item])) (claudeDir ++ [item])
          (ccDir ++ [item]) syncFilter true q with h1 | ⟨rel, hrel, hok, hread⟩
      · rw [h1, FS.read_removeTree_of_pfx _ _ _ hq]
        exact Or.inl rfl
      · exfalso
        cases rel with
        | nil =>
          rw [List.append_nil] at hrel
          rw [hrel, List.getLast?_concat] at hbase
          injection hbase with h5
          exact hitem h5
        | cons r rs =>
          have hfull : syncFilter (r :: rs) = true := relOk_full hok (by simp)
          have hlast : (r :: rs).getLast? = some "settings.local.json" := by
            rw [hrel, List.getLast?_append] at hbase
            cases hgl : (r :: rs).getLast? with
            | none =>
              rw [List.getLast?_eq_none_iff] at hgl
              exact absurd hgl (by simp)
            | some b =>
              rw [hgl] at hbase
              exact hbase
          rw [syncFilter_excludes hlast] at hfull
          exact absurd hfull (by simp)
    · split
      · refine Or.inr (FS.read_write_ne _ _ _ _ ?_)
        intro he
        rw [he, List.getLast?_concat] at hbase
        injection hbase with h5
        exact hitem h5
      · exact Or.inr rfl

theorem foldl_syncStep_never_sync (cwd : FPath) (items : List String)
    (hitems : ∀ i ∈ items, i ≠ "settings.local.json") (fs0 : FS) (q : FPath)
    (hq : q.getLast? = some "settings.local.json") :
    ((items.foldl (syncStep (cwd ++ [".claude"])
        (cwd ++ [".aios-core", "claude-config"])) fs0).read q = none) ∨
    ((items.foldl (syncStep (cwd ++ [".claude"])
        (cwd ++ [".aios-core", "claude-config"])) fs0).read q = fs0.read q) := by
  induction items generalizing fs0 with
  | nil => exact Or.inr rfl
  | cons i is ih =>
    rw [List.foldl_cons]
    have h1 := syncStep_never_sync (cwd ++ [".claude"]) (cwd ++ [".aios-core", "claude-config"])
      fs0 i q hq (hitems i (List.mem_cons_self _ _))
    rcases ih (fun j hj => hitems j (List.mem_cons_of_mem _ hj))
      (syncStep (cwd ++ [".claude"]) (cwd ++ [".aios-core", "claude-config"]) fs0 i)
      with h2 | h2
    · exact Or.inl h2
    · rw [h2]
      exact h1

theorem removeStep_none_or_pres (fsx : FS) (p q : FPath) :
    ((if fsx.existsPath p = true then fsx.removeTree p else fsx).read q = none) ∨
    ((if fsx.existsPath p = true then fsx.removeTree p else fsx).read q = fsx.read q) := by
  split
  · rw [FS.read_removeTree]
    split
    · exact Or.inl rfl
    · exact Or.inr rfl
  · exact Or.inr rfl

theorem removeStep_reads_none (fsx : FS) (p qq : FPath) :
    ((if fsx.existsPath p = true then fsx.removeTree p else fsx).read (p ++ qq)) = none := by
  split
  · exact FS.read_removeTree_of_pfx _ _ _ (List.prefix_append _ _)
  case isFalse h => exact FS.read_eq_none_of_not_existsPath _ _ _ (Bool.eq_false_iff.mpr h)

theorem syncBody_never_sync (fs0 : FS) (cwd : FPath) (q : FPath)
    (hq : q.getLast? = some "settings.local.json") :
    (syncBody fs0 cwd).read q = none ∨ (syncBody fs0 cwd).read q = fs0.read q := by
  have h1 := foldl_syncStep_never_sync cwd SYNC_ITEMS (by decide) fs0 q hq
  simp only [syncBody, NEVER_SYNC, List.foldl_cons, List.foldl_nil]
  rcases removeStep_none_or_pres
      (SYNC_ITEMS.foldl (syncStep (cwd ++ [".claude"])
        (cwd ++ [".aios-core", "claude-config"])) fs0)
      (cwd ++ [".aios-core", "claude-config", "settings.local.json"]) q with h5 | h5
  · exact Or.inl h5
  · rw [h5]
    exact h1

theorem syncBody_top_removed (fs0 : FS) (cwd : FPath) (qq : FPath) :
    (syncBody fs0 cwd).read
        ((cwd ++ [".aios-core", "claude-config", "settings.local.json"]) ++ qq) = none := by
  simp only [syncBody, NEVER_SYNC, List.foldl_cons, List.foldl_nil]
  exact removeStep_reads_none _ _ _

theorem syncAction_run (fs0 : FS) (cwd : FPath)
    (h1 : fs0.existsPath (cwd ++ [".claude"]) = true)
    (h2 : fs0.existsPath (cwd ++ [".aios-core"]) = true) :
    syncAction fs0 cwd = (0, syncBody fs0 cwd) := by
  unfold syncAction
  rw [if_neg (by rw [h1]; simp), if_neg (by rw [h2]; simp)]

set_option maxHeartbeats 2000000 in
/-- C8 counterexample: a `settings.local.json` nested in a distributable
catalog subtree whose source directory is absent from `.claude` survives a
completed sync, so the file can be present in the distributable tree after
`sync`. -/
theorem sync_nested_never_sync_survives :
    (syncAction fsSyncLeftover ["hub"]).1 = 0 ∧
    ((syncAction fsSyncLeftover ["hub"]).2).read
        (["hub", ".aios-core", "claude-config", "rules", "settings.local.json"])
      = some (Content.raw "SECRET") := by
  exact ⟨by decide, by decide⟩

set_option maxHeartbeats 2000000 in
/-- C8 (amended): a completed `sync` never writes the local-only
`settings.local.json` anywhere — every path with that basename afterwards
is either absent or carries its pre-sync content — and nothing exists at
the top-level `claude-config/settings.local.json` after the final removal
step; a pre-existing nested copy inside a catalog subtree that is not
re-synced may survive. -/
theorem sync_never_sync_containment (fs0 : FS) (cwd : FPath)
    (h1 : fs0.existsPath (cwd ++ [".claude"]) = true)
    (h2 : fs0.existsPath (cwd ++ [".aios-core"]) = true) :
    (∀ q : FPath, q.getLast? = some "settings.local.json" →
      ((syncAction fs0 cwd).2).read q = none ∨
      ((syncAction fs0 cwd).2).read q = fs0.read q) ∧
    (∀ qq : FPath, ((syncAction fs0 cwd).2).read
        ((cwd ++ [".aios-core", "claude-config", "settings.local.json"]) ++ qq) = none) := by
  rw [syncAction_run _ _ h1 h2]
  exact ⟨fun q hq => syncBody_never_sync fs0 cwd q hq,
    fun qq => syncBody_top_removed fs0 cwd qq⟩

/-- C8 witness: after syncing the concrete hub, nothing sits at the top
level `claude-config/settings.local.json`, and the nested path holds
either nothing or its pre-sync bytes. -/
theorem sync_never_sync_containment_witness :
    ((syncAction fsSyncLeftover ["hub"]).2).read
        (["hub", ".aios-core", "claude-config", "settings.local.json"]) = none ∧
    (((syncAction fsSyncLeftover ["hub"]).2).read
        (["hub", ".aios-core", "claude-config", "rules", "settings.local.json"]) = none ∨
     ((syncAction fsSyncLeftover ["hub"]).2).read
        (["hub", ".aios-core", "claude-config", "rules", "settings.local.json"])
       = fsSyncLeftover.read
          (["hub", ".aios-core", "claude-config", "rules", "settings.local.json"])) := by
  have h := sync_never_sync_containment fsSyncLeftover ["hub"] (by decide) (by decide)
  exact ⟨h.2 [], h.1 _ (by decide)⟩

end AiosCore